import Mathlib

/-!
# Verification of the `gatt` BLE ATT/GATT server

Shallow embedding of the repository's core components:

* the ATT PDU codec of `src/packet.rs` (buffer based `Pack`/`Unpack`),
* the response truncation rules of `att/src/packet.rs`,
* the attribute entity of `gatt/src/attribute.rs`,
* the attribute database of `src/database.rs`,
* the registration builder of `gatt/src/registration.rs`,
* the GATT handler of `gatt/src/server.rs` and the connection MTU update of
  `att/src/server.rs` / `att/src/server2.rs`.

Bytes are modelled as `List Nat` (each element a value `< 256` produced with
an explicit `% 256`), 16-bit handles and UUID halves as `Nat`.  Fallible
decoding returns a result type; a Rust panic (integer division by zero,
`usize` subtraction overflow, out-of-range slicing or `copy_to_bytes` past
the end of the buffer) is modelled by a dedicated `abort` outcome so that it
stays distinguishable from an ordinary decode error.
-/

/-- Decode failure of the buffer based pack module (`pack::Error`):
`Overflow` when the buffer has fewer bytes than requested, `Unexpected` for a
sentinel byte that matches no alternative. -/
inductive UnpackError
  | overflow
  | unexpected (msg : String)
  deriving Repr, DecidableEq

/-- Outcome of running an unpack on a byte buffer: success together with the
unconsumed rest of the buffer, a decode error, or a Rust panic (`abort`). -/
inductive URes (α : Type)
  | ok (a : α) (rest : List Nat)
  | err (e : UnpackError)
  | abort
  deriving Repr, DecidableEq

/-- Sequence two unpack steps, propagating errors and panics. -/
def URes.bind {α β : Type} : URes α → (α → List Nat → URes β) → URes β
  | .ok a rest, f => f a rest
  | .err e, _ => .err e
  | .abort, _ => .abort

/-- Value of a little-endian digit string (least significant byte first). -/
def leVal : List Nat → Nat
  | [] => 0
  | b :: rest => b + 256 * leVal rest

/-- Little-endian encoding of `v` on `width` bytes, each taken `% 256`
(`to_le_bytes` of the fixed-width Rust integers). -/
def uLEPack (width v : Nat) : List Nat :=
  (List.range width).map (fun i => v / 256 ^ i % 256)

/-- Fixed-width little-endian integer unpack: `Overflow` when fewer than
`width` bytes remain (`u8`/`u16`/`u32`/`u128::unpack`). -/
def uLEUnpack (width : Nat) (l : List Nat) : URes Nat :=
  if width ≤ l.length then .ok (leVal (l.take width)) (l.drop width)
  else .err .overflow

/-- A 16-bit or 128-bit UUID; the two forms are distinct variants and a
16-bit UUID is never promoted (`Uuid` in `att/src/uuid.rs`). -/
inductive Uuid
  | uuid16 (v : Nat)
  | uuid128 (v : Nat)
  deriving Repr, DecidableEq

/-- `Uuid::pack`: 2 bytes for a 16-bit UUID, 16 bytes for a 128-bit one,
both little endian. -/
def uuidPack : Uuid → List Nat
  | .uuid16 v => uLEPack 2 v
  | .uuid128 v => uLEPack 16 v

/-- `Uuid::unpack` of the root draft: dispatch on the number of remaining
bytes (2 or 16), otherwise an `Unexpected` error. -/
def uuidUnpack (l : List Nat) : URes Uuid :=
  if l.length = 2 then
    (uLEUnpack 2 l).bind fun v rest => .ok (.uuid16 v) rest
  else if l.length = 16 then
    (uLEUnpack 16 l).bind fun v rest => .ok (.uuid128 v) rest
  else .err (.unexpected ("unexpected length " ++ toString l.length))

/-- ATT error codes (`ErrorCode` in `src/packet.rs`), with the three
parameterised ranges kept as raw bytes. -/
inductive ErrorCode
  | invalidHandle
  | readNotPermitted
  | writeNotPermitted
  | invalidPDU
  | insufficientAuthentication
  | requestNotSupported
  | invalidOffset
  | insufficientAuthorization
  | prepareQueueFull
  | attributeNotFound
  | attributeNotLong
  | insufficientEncryptionKeySize
  | invalidAttributeValueLength
  | unlikelyError
  | insufficientEncryption
  | unsupportedGroupType
  | insufficientResources
  | databaseOutOfSync
  | valueNotAllowed
  | applicationError (v : Nat)
  | commonProfileAndServiceErrorCodes (v : Nat)
  | reservedForFutureUse (v : Nat)
  deriving Repr, DecidableEq

/-- `ErrorCode::pack`: the error code byte. -/
def errorCodeByte : ErrorCode → Nat
  | .invalidHandle => 0x01
  | .readNotPermitted => 0x02
  | .writeNotPermitted => 0x03
  | .invalidPDU => 0x04
  | .insufficientAuthentication => 0x05
  | .requestNotSupported => 0x06
  | .invalidOffset => 0x07
  | .insufficientAuthorization => 0x08
  | .prepareQueueFull => 0x09
  | .attributeNotFound => 0x0A
  | .attributeNotLong => 0x0B
  | .insufficientEncryptionKeySize => 0x0C
  | .invalidAttributeValueLength => 0x0D
  | .unlikelyError => 0x0E
  | .insufficientEncryption => 0x0F
  | .unsupportedGroupType => 0x10
  | .insufficientResources => 0x11
  | .databaseOutOfSync => 0x12
  | .valueNotAllowed => 0x13
  | .applicationError v => v % 256
  | .commonProfileAndServiceErrorCodes v => v % 256
  | .reservedForFutureUse v => v % 256

/-- `ErrorCode::unpack`: named values `0x01`-`0x13`, `0x80`-`0x9F` is
Application, `0xE0`-`0xFF` is Common Profile and Service, everything else
Reserved for Future Use. -/
def errorCodeUnpack (l : List Nat) : URes ErrorCode :=
  (uLEUnpack 1 l).bind fun v rest =>
    .ok (match v with
      | 0x01 => .invalidHandle
      | 0x02 => .readNotPermitted
      | 0x03 => .writeNotPermitted
      | 0x04 => .invalidPDU
      | 0x05 => .insufficientAuthentication
      | 0x06 => .requestNotSupported
      | 0x07 => .invalidOffset
      | 0x08 => .insufficientAuthorization
      | 0x09 => .prepareQueueFull
      | 0x0A => .attributeNotFound
      | 0x0B => .attributeNotLong
      | 0x0C => .insufficientEncryptionKeySize
      | 0x0D => .invalidAttributeValueLength
      | 0x0E => .unlikelyError
      | 0x0F => .insufficientEncryption
      | 0x10 => .unsupportedGroupType
      | 0x11 => .insufficientResources
      | 0x12 => .databaseOutOfSync
      | 0x13 => .valueNotAllowed
      | v =>
        if 0x80 ≤ v ∧ v ≤ 0x9F then .applicationError v
        else if 0xE0 ≤ v ∧ v ≤ 0xFF then .commonProfileAndServiceErrorCodes v
        else .reservedForFutureUse v) rest

/-- ATT opcodes (`OpCode` in `src/packet.rs`), one per PDU variant. -/
inductive OpCode
  | errorResponse
  | exchangeMtuRequest
  | exchangeMtuResponse
  | findInformationRequest
  | findInformationResponse
  | findByTypeValueRequest
  | findByTypeValueResponse
  | readByTypeRequest
  | readByTypeResponse
  | readRequest
  | readResponse
  | readBlobRequest
  | readBlobResponse
  | readMultipleRequest
  | readMultipleResponse
  | readByGroupTypeRequest
  | readByGroupTypeResponse
  | writeRequest
  | writeResponse
  | writeCommand
  | signedWriteCommand
  | prepareWriteRequest
  | prepareWriteResponse
  | executeWriteRequest
  | executeWriteResponse
  | handleValueNotification
  | handleValueIndication
  | handleValueConfirmation
  deriving Repr, DecidableEq

/-- The opcode byte of each PDU (`packable_enum` for `OpCode`). -/
def opCodeByte : OpCode → Nat
  | .errorResponse => 0x01
  | .exchangeMtuRequest => 0x02
  | .exchangeMtuResponse => 0x03
  | .findInformationRequest => 0x04
  | .findInformationResponse => 0x05
  | .findByTypeValueRequest => 0x06
  | .findByTypeValueResponse => 0x07
  | .readByTypeRequest => 0x08
  | .readByTypeResponse => 0x09
  | .readRequest => 0x0A
  | .readResponse => 0x0B
  | .readBlobRequest => 0x0C
  | .readBlobResponse => 0x0D
  | .readMultipleRequest => 0x0E
  | .readMultipleResponse => 0x0F
  | .readByGroupTypeRequest => 0x10
  | .readByGroupTypeResponse => 0x11
  | .writeRequest => 0x12
  | .writeResponse => 0x13
  | .writeCommand => 0x52
  | .signedWriteCommand => 0xD2
  | .prepareWriteRequest => 0x16
  | .prepareWriteResponse => 0x17
  | .executeWriteRequest => 0x18
  | .executeWriteResponse => 0x19
  | .handleValueNotification => 0x1B
  | .handleValueIndication => 0x1D
  | .handleValueConfirmation => 0x1E

/-- `OpCode::unpack`: match the opcode byte, `Unexpected` otherwise. -/
def opCodeUnpack (l : List Nat) : URes OpCode :=
  (uLEUnpack 1 l).bind fun v rest =>
    match v with
    | 0x01 => .ok .errorResponse rest
    | 0x02 => .ok .exchangeMtuRequest rest
    | 0x03 => .ok .exchangeMtuResponse rest
    | 0x04 => .ok .findInformationRequest rest
    | 0x05 => .ok .findInformationResponse rest
    | 0x06 => .ok .findByTypeValueRequest rest
    | 0x07 => .ok .findByTypeValueResponse rest
    | 0x08 => .ok .readByTypeRequest rest
    | 0x09 => .ok .readByTypeResponse rest
    | 0x0A => .ok .readRequest rest
    | 0x0B => .ok .readResponse rest
    | 0x0C => .ok .readBlobRequest rest
    | 0x0D => .ok .readBlobResponse rest
    | 0x0E => .ok .readMultipleRequest rest
    | 0x0F => .ok .readMultipleResponse rest
    | 0x10 => .ok .readByGroupTypeRequest rest
    | 0x11 => .ok .readByGroupTypeResponse rest
    | 0x12 => .ok .writeRequest rest
    | 0x13 => .ok .writeResponse rest
    | 0x52 => .ok .writeCommand rest
    | 0xD2 => .ok .signedWriteCommand rest
    | 0x16 => .ok .prepareWriteRequest rest
    | 0x17 => .ok .prepareWriteResponse rest
    | 0x18 => .ok .executeWriteRequest rest
    | 0x19 => .ok .executeWriteResponse rest
    | 0x1B => .ok .handleValueNotification rest
    | 0x1D => .ok .handleValueIndication rest
    | 0x1E => .ok .handleValueConfirmation rest
    | v => .err (.unexpected (toString v))

/-- `Pack for AttributeDataList<(Handle, Uuid)>`, one entry: the handle, a
panic when the entry's UUID width disagrees with the list format, then the
UUID bytes.  `none` models the panic. -/
def huEntryPack (format : Nat) : Nat × Uuid → Option (List Nat)
  | (h, .uuid16 v) =>
    if format = 1 then some (uLEPack 2 h ++ uLEPack 2 v) else none
  | (h, .uuid128 v) =>
    if format = 2 then some (uLEPack 2 h ++ uLEPack 16 v) else none

/-- The entry loop of `Pack for AttributeDataList<(Handle, Uuid)>`. -/
def packEntriesHU (format : Nat) : List (Nat × Uuid) → Option (List Nat)
  | [] => some []
  | e :: rest =>
    match huEntryPack format e, packEntriesHU format rest with
    | some b, some bs => some (b ++ bs)
    | _, _ => none

/-- `Pack for AttributeDataList<(Handle, Uuid)>`: an empty list is the single
byte `0x00`; otherwise a format byte fixed by the head entry followed by the
entries. -/
def packListHU : List (Nat × Uuid) → Option (List Nat)
  | [] => some [0]
  | head :: tail =>
    let format : Nat := match head.2 with | .uuid16 _ => 1 | .uuid128 _ => 2
    (packEntriesHU format (head :: tail)).map fun es => format :: es

/-- The entry loop of `Pack for AttributeDataList<(Handle, Bytes)>`: the
handle then the value bytes, a panic (`none`) when an entry's value length
differs from the head entry's. -/
def packEntriesHB (len : Nat) : List (Nat × List Nat) → Option (List Nat)
  | [] => some []
  | e :: rest =>
    if e.2.length = len then
      match packEntriesHB len rest with
      | some bs => some (uLEPack 2 e.1 ++ e.2 ++ bs)
      | none => none
    else none

/-- `Pack for AttributeDataList<(Handle, Bytes)>`: leading entry-length byte
`(value length + 2) as u8`. -/
def packListHB : List (Nat × List Nat) → Option (List Nat)
  | [] => some [0]
  | head :: tail =>
    (packEntriesHB head.2.length (head :: tail)).map
      fun es => (head.2.length + 2) % 256 :: es

/-- The entry loop of `Pack for AttributeDataList<(Handle, Handle, Bytes)>`. -/
def packEntriesHHB (len : Nat) : List (Nat × Nat × List Nat) → Option (List Nat)
  | [] => some []
  | e :: rest =>
    if e.2.2.length = len then
      match packEntriesHHB len rest with
      | some bs => some (uLEPack 2 e.1 ++ uLEPack 2 e.2.1 ++ e.2.2 ++ bs)
      | none => none
    else none

/-- `Pack for AttributeDataList<(Handle, Handle, Bytes)>`: leading
entry-length byte `(value length + 4) as u8`. -/
def packListHHB : List (Nat × Nat × List Nat) → Option (List Nat)
  | [] => some [0]
  | head :: tail =>
    (packEntriesHHB head.2.2.length (head :: tail)).map
      fun es => (head.2.2.length + 4) % 256 :: es

/-- `Unpack for AttributeDataList<(Handle, Uuid)>` of the root draft, entry
loop: `count` entries, each a handle followed by a UUID whose width is fixed
by the format byte. -/
def huEntriesUnpack (format : Nat) : Nat → List Nat → URes (List (Nat × Uuid))
  | 0, l => .ok [] l
  | n + 1, l =>
    (uLEUnpack 2 l).bind fun h l1 =>
    (if format = 1 then
        (uLEUnpack 2 l1).bind fun v l2 => .ok (Uuid.uuid16 v) l2
      else if format = 2 then
        (uLEUnpack 16 l1).bind fun v l2 => .ok (Uuid.uuid128 v) l2
      else .abort).bind fun u l2 =>
    (huEntriesUnpack format n l2).bind fun es l3 => .ok ((h, u) :: es) l3

/-- `Unpack for AttributeDataList<(Handle, Uuid)>` of the root draft: format
byte `0x01` gives entry length 4, `0x02` gives entry length **24** (as in the
source), anything else an `Unexpected` error; then `remaining / length`
entries are read. -/
def unpackListHU (l : List Nat) : URes (List (Nat × Uuid)) :=
  (uLEUnpack 1 l).bind fun format rest =>
    if format = 1 then huEntriesUnpack 1 (rest.length / 4) rest
    else if format = 2 then huEntriesUnpack 2 (rest.length / 24) rest
    else .err (.unexpected ("unexpected format " ++ toString format))

/-- `Unpack for AttributeDataList<(Handle, Bytes)>`, entry loop: a handle,
then `copy_to_bytes(len - 2)`; `len - 2` underflows (panic) when `len < 2`
and `copy_to_bytes` panics when fewer than `len - 2` bytes remain. -/
def hbEntriesUnpack (len : Nat) : Nat → List Nat → URes (List (Nat × List Nat))
  | 0, l => .ok [] l
  | n + 1, l =>
    (uLEUnpack 2 l).bind fun h l1 =>
    if len < 2 then .abort
    else if l1.length < len - 2 then .abort
    else
      (hbEntriesUnpack len n (l1.drop (len - 2))).bind fun es l3 =>
        .ok ((h, l1.take (len - 2)) :: es) l3

/-- `Unpack for AttributeDataList<(Handle, Bytes)>` of the root draft: the
entry-length byte, then `remaining / len` entries.  `len = 0` makes
`buf.remaining() / len` a division by zero: a panic. -/
def unpackListHB (l : List Nat) : URes (List (Nat × List Nat)) :=
  (uLEUnpack 1 l).bind fun len rest =>
    if len = 0 then .abort
    else hbEntriesUnpack len (rest.length / len) rest

/-- `Unpack for AttributeDataList<(Handle, Handle, Bytes)>`, entry loop: two
handles then `copy_to_bytes(len - 4)` with the same panic conditions. -/
def hhbEntriesUnpack (len : Nat) :
    Nat → List Nat → URes (List (Nat × Nat × List Nat))
  | 0, l => .ok [] l
  | n + 1, l =>
    (uLEUnpack 2 l).bind fun h1 l1 =>
    (uLEUnpack 2 l1).bind fun h2 l2 =>
    if len < 4 then .abort
    else if l2.length < len - 4 then .abort
    else
      (hhbEntriesUnpack len n (l2.drop (len - 4))).bind fun es l3 =>
        .ok ((h1, h2, l2.take (len - 4)) :: es) l3

/-- `Unpack for AttributeDataList<(Handle, Handle, Bytes)>` of the root
draft, with the same division by zero for `len = 0`. -/
def unpackListHHB (l : List Nat) : URes (List (Nat × Nat × List Nat)) :=
  (uLEUnpack 1 l).bind fun len rest =>
    if len = 0 then .abort
    else hhbEntriesUnpack len (rest.length / len) rest

/-- `Unpack for HandlesInformationList`: `(Handle, Handle)` pairs until the
buffer is exhausted; a trailing fragment of 1-3 bytes is an `Overflow`. -/
def hilUnpack : List Nat → URes (List (Nat × Nat))
  | [] => .ok [] []
  | a :: b :: c :: d :: rest =>
    (hilUnpack rest).bind fun v r => .ok ((a + 256 * b, c + 256 * d) :: v) r
  | _ => .err .overflow

/-- `Pack for HandlesInformationList`: the pairs back to back, no count. -/
def hilPack (l : List (Nat × Nat)) : List Nat :=
  (l.map fun p => uLEPack 2 p.1 ++ uLEPack 2 p.2).flatten

/-- `Unpack for SetOfHandles`: handles until the buffer is exhausted. -/
def sohUnpack : List Nat → URes (List Nat)
  | [] => .ok [] []
  | a :: b :: rest =>
    (sohUnpack rest).bind fun v r => .ok ((a + 256 * b) :: v) r
  | _ => .err .overflow

/-- `Pack for SetOfHandles`: the handles back to back, no count. -/
def sohPack (l : List Nat) : List Nat := (l.map (uLEPack 2)).flatten

/-- `Unpack for Bytes`: the whole remaining buffer. -/
def bytesUnpack (l : List Nat) : URes (List Nat) := .ok l []

/-- The root draft's `Packet` sum over all PDU variants
(`src/packet.rs`), with the fields of each `packable_struct`. -/
inductive Packet
  | errorResponse (requestOpcodeInError : OpCode)
      (attributeHandleInError : Nat) (errorCode : ErrorCode)
  | exchangeMtuRequest (clientRxMtu : Nat)
  | exchangeMtuResponse (serverRxMtu : Nat)
  | findInformationRequest (startingHandle endingHandle : Nat)
  | findInformationResponse (values : List (Nat × Uuid))
  | findByTypeValueRequest (startingHandle endingHandle : Nat)
      (attributeType : Nat) (attributeValue : List Nat)
  | findByTypeValueResponse (values : List (Nat × Nat))
  | readByTypeRequest (startingHandle endingHandle : Nat)
      (attributeType : Uuid)
  | readByTypeResponse (values : List (Nat × List Nat))
  | readRequest (attributeHandle : Nat)
  | readResponse (attributeValue : List Nat)
  | readBlobRequest (attributeHandle attributeOffset : Nat)
  | readBlobResponse (attributeValue : List Nat)
  | readMultipleRequest (setOfHandles : List Nat)
  | readMultipleResponse (setOfValues : List Nat)
  | readByGroupTypeRequest (startingHandle endingHandle : Nat)
      (attributeGroupType : Uuid)
  | readByGroupTypeResponse (values : List (Nat × Nat × List Nat))
  | writeRequest (attributeHandle : Nat) (attributeValue : List Nat)
  | writeResponse
  | writeCommand (attributeHandle : Nat) (attributeValue : List Nat)
  | signedWriteCommand (attributeHandle : Nat) (attributeValue : List Nat)
      (authenticationSignature : List Nat)
  | prepareWriteRequest (attributeHandle valueOffset : Nat)
      (partAttributeValue : List Nat)
  | prepareWriteResponse (attributeHandle valueOffset : Nat)
      (partAttributeValue : List Nat)
  | executeWriteRequest (flags : Bool)
  | executeWriteResponse
  | handleValueNotification (attributeHandle : Nat) (attributeValue : List Nat)
  | handleValueIndication (attributeHandle : Nat) (attributeValue : List Nat)
  | handleValueConfirmation
  deriving Repr, DecidableEq

/-- `Pack for Packet`: the opcode byte followed by the packed fields.
`none` models the list packing panics. -/
def packPacket : Packet → Option (List Nat)
  | .errorResponse op h c =>
    some (0x01 :: ([opCodeByte op] ++ uLEPack 2 h ++ [errorCodeByte c]))
  | .exchangeMtuRequest m => some (0x02 :: uLEPack 2 m)
  | .exchangeMtuResponse m => some (0x03 :: uLEPack 2 m)
  | .findInformationRequest s e => some (0x04 :: (uLEPack 2 s ++ uLEPack 2 e))
  | .findInformationResponse vs => (packListHU vs).map (0x05 :: ·)
  | .findByTypeValueRequest s e t v =>
    some (0x06 :: (uLEPack 2 s ++ uLEPack 2 e ++ uLEPack 2 t ++ v))
  | .findByTypeValueResponse vs => some (0x07 :: hilPack vs)
  | .readByTypeRequest s e t =>
    some (0x08 :: (uLEPack 2 s ++ uLEPack 2 e ++ uuidPack t))
  | .readByTypeResponse vs => (packListHB vs).map (0x09 :: ·)
  | .readRequest h => some (0x0A :: uLEPack 2 h)
  | .readResponse v => some (0x0B :: v)
  | .readBlobRequest h o => some (0x0C :: (uLEPack 2 h ++ uLEPack 2 o))
  | .readBlobResponse v => some (0x0D :: v)
  | .readMultipleRequest hs => some (0x0E :: sohPack hs)
  | .readMultipleResponse v => some (0x0F :: v)
  | .readByGroupTypeRequest s e t =>
    some (0x10 :: (uLEPack 2 s ++ uLEPack 2 e ++ uuidPack t))
  | .readByGroupTypeResponse vs => (packListHHB vs).map (0x11 :: ·)
  | .writeRequest h v => some (0x12 :: (uLEPack 2 h ++ v))
  | .writeResponse => some [0x13]
  | .writeCommand h v => some (0x52 :: (uLEPack 2 h ++ v))
  | .signedWriteCommand h v s => some (0xD2 :: (uLEPack 2 h ++ v ++ s))
  | .prepareWriteRequest h o v =>
    some (0x16 :: (uLEPack 2 h ++ uLEPack 2 o ++ v))
  | .prepareWriteResponse h o v =>
    some (0x17 :: (uLEPack 2 h ++ uLEPack 2 o ++ v))
  | .executeWriteRequest f => some [0x18, if f then 1 else 0]
  | .executeWriteResponse => some [0x19]
  | .handleValueNotification h v => some (0x1B :: (uLEPack 2 h ++ v))
  | .handleValueIndication h v => some (0x1D :: (uLEPack 2 h ++ v))
  | .handleValueConfirmation => some [0x1E]

/-- `Unpack for Packet`: decode the opcode byte, then the fields of the
corresponding `packable_struct` in order. -/
def unpackPacket (l : List Nat) : URes Packet :=
  (opCodeUnpack l).bind fun op body =>
    match op with
    | .errorResponse =>
      (opCodeUnpack body).bind fun rop l1 =>
      (uLEUnpack 2 l1).bind fun h l2 =>
      (errorCodeUnpack l2).bind fun c l3 =>
        .ok (.errorResponse rop h c) l3
    | .exchangeMtuRequest =>
      (uLEUnpack 2 body).bind fun m l1 => .ok (.exchangeMtuRequest m) l1
    | .exchangeMtuResponse =>
      (uLEUnpack 2 body).bind fun m l1 => .ok (.exchangeMtuResponse m) l1
    | .findInformationRequest =>
      (uLEUnpack 2 body).bind fun s l1 =>
      (uLEUnpack 2 l1).bind fun e l2 =>
        .ok (.findInformationRequest s e) l2
    | .findInformationResponse =>
      (unpackListHU body).bind fun vs l1 => .ok (.findInformationResponse vs) l1
    | .findByTypeValueRequest =>
      (uLEUnpack 2 body).bind fun s l1 =>
      (uLEUnpack 2 l1).bind fun e l2 =>
      (uLEUnpack 2 l2).bind fun t l3 =>
      (bytesUnpack l3).bind fun v l4 =>
        .ok (.findByTypeValueRequest s e t v) l4
    | .findByTypeValueResponse =>
      (hilUnpack body).bind fun vs l1 => .ok (.findByTypeValueResponse vs) l1
    | .readByTypeRequest =>
      (uLEUnpack 2 body).bind fun s l1 =>
      (uLEUnpack 2 l1).bind fun e l2 =>
      (uuidUnpack l2).bind fun t l3 =>
        .ok (.readByTypeRequest s e t) l3
    | .readByTypeResponse =>
      (unpackListHB body).bind fun vs l1 => .ok (.readByTypeResponse vs) l1
    | .readRequest =>
      (uLEUnpack 2 body).bind fun h l1 => .ok (.readRequest h) l1
    | .readResponse =>
      (bytesUnpack body).bind fun v l1 => .ok (.readResponse v) l1
    | .readBlobRequest =>
      (uLEUnpack 2 body).bind fun h l1 =>
      (uLEUnpack 2 l1).bind fun o l2 =>
        .ok (.readBlobRequest h o) l2
    | .readBlobResponse =>
      (bytesUnpack body).bind fun v l1 => .ok (.readBlobResponse v) l1
    | .readMultipleRequest =>
      (sohUnpack body).bind fun hs l1 => .ok (.readMultipleRequest hs) l1
    | .readMultipleResponse =>
      (bytesUnpack body).bind fun v l1 => .ok (.readMultipleResponse v) l1
    | .readByGroupTypeRequest =>
      (uLEUnpack 2 body).bind fun s l1 =>
      (uLEUnpack 2 l1).bind fun e l2 =>
      (uuidUnpack l2).bind fun t l3 =>
        .ok (.readByGroupTypeRequest s e t) l3
    | .readByGroupTypeResponse =>
      (unpackListHHB body).bind fun vs l1 => .ok (.readByGroupTypeResponse vs) l1
    | .writeRequest =>
      (uLEUnpack 2 body).bind fun h l1 =>
      (bytesUnpack l1).bind fun v l2 =>
        .ok (.writeRequest h v) l2
    | .writeResponse => .ok .writeResponse body
    | .writeCommand =>
      (uLEUnpack 2 body).bind fun h l1 =>
      (bytesUnpack l1).bind fun v l2 =>
        .ok (.writeCommand h v) l2
    | .signedWriteCommand =>
      (uLEUnpack 2 body).bind fun h l1 =>
      (bytesUnpack l1).bind fun v l2 =>
      (bytesUnpack l2).bind fun s l3 =>
        .ok (.signedWriteCommand h v s) l3
    | .prepareWriteRequest =>
      (uLEUnpack 2 body).bind fun h l1 =>
      (uLEUnpack 2 l1).bind fun o l2 =>
      (bytesUnpack l2).bind fun v l3 =>
        .ok (.prepareWriteRequest h o v) l3
    | .prepareWriteResponse =>
      (uLEUnpack 2 body).bind fun h l1 =>
      (uLEUnpack 2 l1).bind fun o l2 =>
      (bytesUnpack l2).bind fun v l3 =>
        .ok (.prepareWriteResponse h o v) l3
    | .executeWriteRequest =>
      (uLEUnpack 1 body).bind fun f l1 => .ok (.executeWriteRequest (f ≠ 0)) l1
    | .executeWriteResponse => .ok .executeWriteResponse body
    | .handleValueNotification =>
      (uLEUnpack 2 body).bind fun h l1 =>
      (bytesUnpack l1).bind fun v l2 =>
        .ok (.handleValueNotification h v) l2
    | .handleValueIndication =>
      (uLEUnpack 2 body).bind fun h l1 =>
      (bytesUnpack l1).bind fun v l2 =>
        .ok (.handleValueIndication h v) l2
    | .handleValueConfirmation => .ok .handleValueConfirmation body

/-- Decode the encoding of a packet (when encoding does not panic). -/
def decodeEncode (v : Packet) : Option (URes Packet) :=
  (packPacket v).map unpackPacket

/-!
## Response truncation (`att/src/packet.rs`, `att/src/size.rs`)

The list responses drop trailing entries with a greedy loop: starting from
`mtu - header`, an entry is kept while its `Size` fits in the remaining
budget, and the vector is truncated to the number of kept entries.  The
value responses slice their value to `mtu - 1` bytes.
-/

/-- `Size` of a `(Handle, Uuid)` entry: 2 bytes of handle plus 2 or 16 bytes
of UUID. -/
def huSize (e : Nat × Uuid) : Nat :=
  2 + match e.2 with | .uuid16 _ => 2 | .uuid128 _ => 16

/-- `Size` of a `(Handle, Handle)` entry of a Find By Type Value response. -/
def hhSize (_ : Nat × Nat) : Nat := 4

/-- `Size` of a `(Handle, bytes)` entry. -/
def hbSize (e : Nat × List Nat) : Nat := 2 + e.2.length

/-- `Size` of a `(Handle, Handle, bytes)` entry. -/
def hhbSize (e : Nat × Nat × List Nat) : Nat := 4 + e.2.2.length

/-- The greedy loop shared by the four list `truncate` impls: the number of
leading entries whose sizes fit into `remaining`. -/
def truncCount {α : Type} (sz : α → Nat) : Nat → List α → Nat
  | _, [] => 0
  | remaining, i :: rest =>
    if sz i > remaining then 0
    else 1 + truncCount sz (remaining - sz i) rest

/-- `FindInformationResponse::truncate`: budget `mtu - 2`. -/
def fiTruncate (values : List (Nat × Uuid)) (mtu : Nat) : List (Nat × Uuid) :=
  values.take (truncCount huSize (mtu - 2) values)

/-- `FindByTypeValueResponse::truncate`: budget `mtu - 1`. -/
def fbtvTruncate (values : List (Nat × Nat)) (mtu : Nat) : List (Nat × Nat) :=
  values.take (truncCount hhSize (mtu - 1) values)

/-- `ReadByTypeResponse::truncate`: budget `mtu - 2`. -/
def rbtTruncate (values : List (Nat × List Nat)) (mtu : Nat) :
    List (Nat × List Nat) :=
  values.take (truncCount hbSize (mtu - 2) values)

/-- `ReadByGroupTypeResponse::truncate`: budget `mtu - 2`. -/
def rbgtTruncate (values : List (Nat × Nat × List Nat)) (mtu : Nat) :
    List (Nat × Nat × List Nat) :=
  values.take (truncCount hhbSize (mtu - 2) values)

/-- `ReadResponse::truncate`: slice the value to `mtu - 1` bytes when it is
longer. -/
def readResponseTruncate (value : List Nat) (mtu : Nat) : List Nat :=
  if value.length > mtu - 1 then value.take (mtu - 1) else value

/-- `ReadBlobResponse::truncate`, same body as `ReadResponse::truncate`. -/
def readBlobResponseTruncate (value : List Nat) (mtu : Nat) : List Nat :=
  if value.length > mtu - 1 then value.take (mtu - 1) else value

/-- `ReadMultipleResponse::truncate`, same body on `set_of_values`. -/
def readMultipleResponseTruncate (value : List Nat) (mtu : Nat) : List Nat :=
  if value.length > mtu - 1 then value.take (mtu - 1) else value

/-- All entries of a `(Handle, Uuid)` list share one UUID wire width
(mixing the two widths in one response panics the packer and is a
programming error per the wire format). -/
def huUniform (l : List (Nat × Uuid)) : Prop :=
  ∀ e1 ∈ l, ∀ e2 ∈ l,
    (match e1.2 with | .uuid16 _ => (1 : Nat) | .uuid128 _ => 2) =
      (match e2.2 with | .uuid16 _ => (1 : Nat) | .uuid128 _ => 2)

/-- All entries of a `(Handle, bytes)` list share one value length. -/
def hbUniform (l : List (Nat × List Nat)) : Prop :=
  ∀ e1 ∈ l, ∀ e2 ∈ l, e1.2.length = e2.2.length

/-- All entries of a `(Handle, Handle, bytes)` list share one value length. -/
def hhbUniform (l : List (Nat × Nat × List Nat)) : Prop :=
  ∀ e1 ∈ l, ∀ e2 ∈ l, e1.2.2.length = e2.2.2.length

/-!
## Attributes (`gatt/src/attribute.rs`)

`Permission` is a four-bit bitflag set, modelled as four booleans.
`CharacteristicProperties`, the extended-properties bitmap and the CCC/SCC
bitmaps are kept as raw `Nat` bit masks exactly as the `bitflags!` types.

`Attribute::get` applies the permission checks and renders the variant; its
error can only be one of the three permission errors (the body never
produces `InvalidDataLength`, which is why `database.rs` marks that arm
`unreachable!()`), so it is typed with the three-variant `ReadError`.
`Attribute::set` can additionally fail with `InvalidDataLength`.
-/

/-- The `Permission` bitflags: `READABLE`, `WRITEABLE`,
`AUTHORIZATION_REQUIRED`, `AUTHENTICATION_REQUIRED`. -/
structure Permission where
  readable : Bool
  writeable : Bool
  authorizationRequired : Bool
  authenticationRequired : Bool
  deriving Repr, DecidableEq

/-- Error of a failed `Attribute::get` (the read path never produces
`InvalidDataLength`). -/
inductive ReadError
  | permissionDenied
  | authorizationRequired
  | authenticationRequired
  deriving Repr, DecidableEq

/-- Error of a failed `Attribute::set` (`attribute::Error`). -/
inductive AttrError
  | permissionDenied
  | authorizationRequired
  | authenticationRequired
  | invalidDataLength
  deriving Repr, DecidableEq

/-- The `Attribute` tagged variant (`gatt/src/attribute.rs`).  Handles and
bitmaps are `Nat`, values are byte lists. -/
inductive Attribute
  | service (handle : Nat) (primary : Bool) (uuid : Uuid)
  | includeService (handle includedServiceHandle endGroupHandle : Nat)
      (uuid : Uuid)
  | characteristic (handle properties valueHandle : Nat) (uuid : Uuid)
  | characteristicValue (handle : Nat) (attrType : Uuid) (value : List Nat)
      (permission : Permission)
  | characteristicExtendedProperties (handle extendedProperties : Nat)
  | characteristicUserDescription (handle : Nat) (description : String)
      (permission : Permission)
  | clientCharacteristicConfiguration (handle configuration : Nat)
      (permission : Permission)
  | serverCharacteristicConfiguration (handle configuration : Nat)
      (permission : Permission)
  | characteristicPresentationFormat
      (handle format exponent unit nameSpace description : Nat)
  | characteristicAggregateFormat (handle : Nat) (attributeHandles : List Nat)
  | descriptor (handle : Nat) (uuid : Uuid) (value : List Nat)
      (permission : Permission)
  deriving Repr, DecidableEq

/-- `Attribute::handle`. -/
def Attribute.handle : Attribute → Nat
  | .service h _ _ => h
  | .includeService h _ _ _ => h
  | .characteristic h _ _ _ => h
  | .characteristicValue h _ _ _ => h
  | .characteristicExtendedProperties h _ => h
  | .characteristicUserDescription h _ _ => h
  | .clientCharacteristicConfiguration h _ _ => h
  | .serverCharacteristicConfiguration h _ _ => h
  | .characteristicPresentationFormat h _ _ _ _ _ => h
  | .characteristicAggregateFormat h _ => h
  | .descriptor h _ _ _ => h

/-- `Attribute::attr_type`: the fixed 16-bit declaration/descriptor UUIDs, or
the stored UUID for values and user descriptors. -/
def Attribute.attrType : Attribute → Uuid
  | .service _ primary _ => if primary then .uuid16 0x2800 else .uuid16 0x2801
  | .includeService _ _ _ _ => .uuid16 0x2802
  | .characteristic _ _ _ _ => .uuid16 0x2803
  | .characteristicValue _ t _ _ => t
  | .characteristicExtendedProperties _ _ => .uuid16 0x2900
  | .characteristicUserDescription _ _ _ => .uuid16 0x2901
  | .clientCharacteristicConfiguration _ _ _ => .uuid16 0x2902
  | .serverCharacteristicConfiguration _ _ _ => .uuid16 0x2903
  | .characteristicPresentationFormat _ _ _ _ _ _ => .uuid16 0x2904
  | .characteristicAggregateFormat _ _ => .uuid16 0x2905
  | .descriptor _ u _ _ => u

/-- The read-only permission set of the declaration-like variants. -/
def readOnlyPerm : Permission := ⟨true, false, false, false⟩

/-- `Attribute::permission`. -/
def Attribute.permission : Attribute → Permission
  | .service _ _ _ => readOnlyPerm
  | .includeService _ _ _ _ => readOnlyPerm
  | .characteristic _ _ _ _ => readOnlyPerm
  | .characteristicValue _ _ _ p => p
  | .characteristicExtendedProperties _ _ => readOnlyPerm
  | .characteristicUserDescription _ _ p => p
  | .clientCharacteristicConfiguration _ _ p => p
  | .serverCharacteristicConfiguration _ _ p => p
  | .characteristicPresentationFormat _ _ _ _ _ _ => readOnlyPerm
  | .characteristicAggregateFormat _ _ => readOnlyPerm
  | .descriptor _ _ _ p => p

/-- The rendering part of `Attribute::get` (after the permission checks):
serialize the variant to its value bytes, all integers little endian. -/
def Attribute.render : Attribute → List Nat
  | .service _ _ u => uuidPack u
  | .includeService _ ish egh u => uLEPack 2 ish ++ uLEPack 2 egh ++ uuidPack u
  | .characteristic _ props vh u => uLEPack 1 props ++ uLEPack 2 vh ++ uuidPack u
  | .characteristicValue _ _ v _ => v
  | .characteristicExtendedProperties _ ep => uLEPack 1 ep
  | .characteristicUserDescription _ d _ =>
    d.toUTF8.toList.map (fun b => b.toNat)
  | .clientCharacteristicConfiguration _ c _ => uLEPack 2 c
  | .serverCharacteristicConfiguration _ c _ => uLEPack 2 c
  | .characteristicPresentationFormat _ f e u ns d =>
    uLEPack 1 f ++ uLEPack 1 e ++ uLEPack 2 u ++ uLEPack 2 ns ++ uLEPack 2 d
  | .characteristicAggregateFormat _ hs => (hs.map (uLEPack 2)).flatten
  | .descriptor _ _ v _ => v

/-- `Attribute::get`: the three permission checks in source order, then the
rendered value bytes. -/
def Attribute.get (a : Attribute) (authorized authenticated : Bool) :
    Except ReadError (List Nat) :=
  if ¬a.permission.readable then .error .permissionDenied
  else if ¬authorized ∧ a.permission.authorizationRequired then
    .error .authorizationRequired
  else if ¬authenticated ∧ a.permission.authenticationRequired then
    .error .authenticationRequired
  else .ok a.render

/-- The `while val.remaining() > 2` loop of the aggregate-format parser:
handles read while more than two bytes remain, plus the leftover bytes. -/
def cafLoop (l : List Nat) : List Nat × List Nat :=
  if 2 < l.length then
    let r := cafLoop (l.drop 2)
    (leVal (l.take 2) :: r.1, r.2)
  else ([], l)
  termination_by l.length
  decreasing_by simp [List.length_drop]; omega

/-- `Attribute::set`: permission checks in source order, then parse the
written bytes per variant, returning the updated attribute. -/
def Attribute.set (a : Attribute) (val : List Nat) (authorized authenticated : Bool) :
    Except AttrError Attribute :=
  if ¬a.permission.writeable then .error .permissionDenied
  else if ¬authorized ∧ a.permission.authorizationRequired then
    .error .authorizationRequired
  else if ¬authenticated ∧ a.permission.authenticationRequired then
    .error .authenticationRequired
  else
    match a with
    | .service h p _ =>
      if val.length = 2 then .ok (.service h p (.uuid16 (leVal val)))
      else if val.length = 16 then .ok (.service h p (.uuid128 (leVal val)))
      else .error .invalidDataLength
    | .includeService h _ _ _ =>
      if val.length = 6 then
        .ok (.includeService h (leVal (val.take 2)) (leVal ((val.drop 2).take 2))
          (.uuid16 (leVal (val.drop 4))))
      else if val.length = 20 then
        .ok (.includeService h (leVal (val.take 2)) (leVal ((val.drop 2).take 2))
          (.uuid128 (leVal (val.drop 4))))
      else .error .invalidDataLength
    | .characteristic h _ _ _ =>
      if val.length = 5 then
        .ok (.characteristic h (leVal (val.take 1)) (leVal ((val.drop 1).take 2))
          (.uuid16 (leVal (val.drop 3))))
      else if val.length = 19 then
        .ok (.characteristic h (leVal (val.take 1)) (leVal ((val.drop 1).take 2))
          (.uuid128 (leVal (val.drop 3))))
      else .error .invalidDataLength
    | .characteristicValue h t _ p => .ok (.characteristicValue h t val p)
    | .characteristicExtendedProperties h _ =>
      if val.length = 0 then .error .invalidDataLength
      else .ok (.characteristicExtendedProperties h (leVal (val.take 1) &&& 3))
    | .characteristicUserDescription h _ p =>
      match String.fromUTF8? ⟨⟨val.map (fun b => UInt8.ofNat b)⟩⟩ with
      | some s => .ok (.characteristicUserDescription h s p)
      | none => .error .invalidDataLength
    | .clientCharacteristicConfiguration h _ p =>
      if val.length < 2 then .error .invalidDataLength
      else .ok (.clientCharacteristicConfiguration h (leVal (val.take 2) &&& 3) p)
    | .serverCharacteristicConfiguration h _ p =>
      if val.length < 2 then .error .invalidDataLength
      else .ok (.serverCharacteristicConfiguration h (leVal (val.take 2) &&& 1) p)
    | .characteristicPresentationFormat h _ _ _ _ _ =>
      if val.length = 8 then
        .ok (.characteristicPresentationFormat h (leVal (val.take 1))
          (leVal ((val.drop 1).take 1)) (leVal ((val.drop 2).take 2))
          (leVal ((val.drop 4).take 2)) (leVal ((val.drop 6).take 2)))
      else .error .invalidDataLength
    | .characteristicAggregateFormat h _ =>
      let r := cafLoop val
      if r.2.length ≠ 0 then .error .invalidDataLength
      else .ok (.characteristicAggregateFormat h r.1)
    | .descriptor h u _ p => .ok (.descriptor h u val p)

/-!
## Database (`src/database.rs`)

The `BTreeMap<Handle, Attribute>` is modelled as a handle-ordered attribute
list; `attrs.range(start..=end)` becomes an order-preserving filter.  All
operations are read-only except `write`, which returns the updated list.
-/

/-- The attribute database: attributes in ascending handle order. -/
def Database := List Attribute

/-- Results of a Database operation: `(failing handle, error code)` on
error. -/
def DbResult (α : Type) := Except (Nat × ErrorCode) α

/-- `self.attrs.range(start..=end)`: the attributes whose handle lies in the
inclusive range, in database order. -/
def rangeAttrs (db : Database) (start e : Nat) : List Attribute :=
  db.filter fun a => decide (start ≤ a.handle) && decide (a.handle ≤ e)

/-- Map a read permission error to its ATT error code, as in the `match`
arms of `database.rs`. -/
def readErrCode : ReadError → ErrorCode
  | .permissionDenied => .readNotPermitted
  | .authorizationRequired => .insufficientAuthorization
  | .authenticationRequired => .insufficientAuthentication

/-- Map a write error to its ATT error code (`Database::write`). -/
def writeErrCode : AttrError → ErrorCode
  | .permissionDenied => .writeNotPermitted
  | .authorizationRequired => .insufficientAuthorization
  | .authenticationRequired => .insufficientAuthentication
  | .invalidDataLength => .invalidAttributeValueLength

/-- Exit of the `read_by_group_type` scan loop: an early error return, the
early `return Ok(result)` taken on a value-length mismatch, or the loop
running off the end of the range with its final `result` / `current` /
`last` state. -/
inductive RbgtExit
  | earlyErr (h : Nat) (e : ErrorCode)
  | earlyOk (result : List (Nat × Nat × List Nat))
  | done (result : List (Nat × Nat × List Nat)) (current : Option (Nat × List Nat))
      (last : Nat)
  deriving Repr, DecidableEq

/-- The `for (key, val) in self.attrs.range(range)` loop of
`Database::read_by_group_type`, carrying `result`, `current`, `last` and
`val_len` exactly as the four mutable locals of the source. -/
def rbgtGo (u : Uuid) (az an : Bool) :
    List Attribute → List (Nat × Nat × List Nat) → Option (Nat × List Nat) →
      Nat → Option Nat → RbgtExit
  | [], result, current, last, _ => .done result current last
  | a :: rest, result, current, last, valLen =>
    if a.attrType = u then
      let valLen2 := match current with
        | some c => some c.2.length
        | none => valLen
      let result2 := match current with
        | some c => result ++ [(c.1, last, c.2)]
        | none => result
      match a.get az an with
      | .error e => .earlyErr a.handle (readErrCode e)
      | .ok b =>
        match valLen2 with
        | some len =>
          if len ≠ b.length then .earlyOk result2
          else rbgtGo u az an rest result2 (some (a.handle, b)) a.handle valLen2
        | none => rbgtGo u az an rest result2 (some (a.handle, b)) a.handle valLen2
    else rbgtGo u az an rest result current a.handle valLen

/-- `Database::read_by_group_type`: range validation, the scan loop, and the
close-out of the final pending group at `last`. -/
def dbReadByGroupType (db : Database) (start e : Nat) (u : Uuid)
    (az an : Bool) : DbResult (List (Nat × Nat × List Nat)) :=
  if start = 0 ∨ e < start then .error (start, .invalidHandle)
  else
    match rbgtGo u az an (rangeAttrs db start e) [] none 0 none with
    | .earlyErr h ec => .error (h, ec)
    | .earlyOk result => .ok result
    | .done result current last =>
      match current with
      | some c => .ok (result ++ [(c.1, last, c.2)])
      | none => .error (start, .attributeNotFound)

/-- `Database::find_by_type_value`: run `read_by_group_type` over the
16-bit type, keep the groups whose value equals `value`, and report
`AttributeNotFound` when nothing is left. -/
def dbFindByTypeValue (db : Database) (start e : Nat) (uuid16 : Nat)
    (value : List Nat) (az an : Bool) : DbResult (List (Nat × Nat)) :=
  match dbReadByGroupType db start e (.uuid16 uuid16) az an with
  | .error err => .error err
  | .ok groups =>
    let result := groups.filterMap fun g =>
      if g.2.2 = value then some (g.1, g.2.1) else none
    if result.isEmpty then .error (start, .attributeNotFound) else .ok result

/-- The `filter_map` + `collect::<Result<_, _>>` loop of
`Database::read_by_type`: all matching `(handle, value)` pairs, stopping at
the first permission error. -/
def rbtGo (u : Uuid) (az an : Bool) :
    List Attribute → DbResult (List (Nat × List Nat))
  | [] => .ok []
  | a :: rest =>
    if a.attrType = u then
      match a.get az an with
      | .error e => .error (a.handle, readErrCode e)
      | .ok b =>
        match rbtGo u az an rest with
        | .ok l => .ok ((a.handle, b) :: l)
        | .error err => .error err
    else rbtGo u az an rest

/-- `Database::read_by_type`. -/
def dbReadByType (db : Database) (start e : Nat) (u : Uuid) (az an : Bool) :
    DbResult (List (Nat × List Nat)) :=
  if start = 0 ∨ e < start then .error (start, .invalidHandle)
  else
    match rbtGo u az an (rangeAttrs db start e) with
    | .error err => .error err
    | .ok result =>
      if result.isEmpty then .error (start, .attributeNotFound) else .ok result

/-- Whether a UUID is the 16-bit variant. -/
def Uuid.is16 : Uuid → Bool
  | .uuid16 _ => true
  | .uuid128 _ => false

/-- `Database::find_information`: the `(handle, type)` pairs of the range;
the width of the first entry fixes the format and a `take_while` stops at
the first entry of the other width. -/
def dbFindInformation (db : Database) (start e : Nat) :
    DbResult (List (Nat × Uuid)) :=
  if start = 0 ∨ e < start then .error (start, .invalidHandle)
  else
    match (rangeAttrs db start e).map (fun a => (a.handle, a.attrType)) with
    | [] => .error (start, .attributeNotFound)
    | v :: rest =>
      if v.2.is16 then .ok (v :: rest.takeWhile fun p => p.2.is16)
      else .ok (v :: rest.takeWhile fun p => !p.2.is16)

/-- `Database::read`: single-attribute read with `InvalidHandle` for handle
0 and `AttributeNotFound` for a missing handle. -/
def dbRead (db : Database) (h : Nat) (az an : Bool) : DbResult (List Nat) :=
  if h = 0 then .error (h, .invalidHandle)
  else
    match db.find? (fun a => a.handle == h) with
    | none => .error (h, .attributeNotFound)
    | some a =>
      match a.get az an with
      | .ok v => .ok v
      | .error e => .error (h, readErrCode e)

/-- `Database::write`: single-attribute write, returning the updated
database. -/
def dbWrite (db : Database) (h : Nat) (val : List Nat) (az an : Bool) :
    DbResult Database :=
  if h = 0 then .error (h, .invalidHandle)
  else
    match db.find? (fun a => a.handle == h) with
    | none => .error (h, .attributeNotFound)
    | some a =>
      match a.set val az an with
      | .ok a2 => .ok (db.map fun b => if b.handle = h then a2 else b)
      | .error e => .error (h, writeErrCode e)

/-!
## Registration builder (`gatt/src/registration.rs`)

Handles are allocated by a strictly sequential `next_handle` counter
starting at `0x0001`.  `CharacteristicProperties` is the `u32` bitflag set
of the builder; `perm`, the split into the declaration's property byte plus
extended-properties byte, and the three optional descriptors follow the
source.
-/

/-- `bitflags` `contains`: all bits of `bit` are set in `p`. -/
def propsContains (p bit : Nat) : Bool := p &&& bit == bit

/-- `CharacteristicProperties::perm`. -/
def propsPerm (p : Nat) : Permission where
  readable := propsContains p 0x0002
  writeable := propsContains p 0x0008 || propsContains p 0x0004
  authorizationRequired := propsContains p 0x10000
  authenticationRequired := propsContains p 0x0040

/-- `From<CharacteristicProperties> for (AttProperties, AttExProperties)`:
the low byte is the declaration property bitmap, bits 8-9 the
extended-properties bitmap; a nonempty extended bitmap forces
`EXTENDED_PROPERTIES` (0x80) into the declaration byte. -/
def propsSplit (p : Nat) : Nat × Nat :=
  let prop := p &&& 0xFF
  let exprop := (p >>> 8) % 256 &&& 0b11
  (if exprop ≠ 0 then prop ||| 0x80 else prop, exprop)

/-- The builder state (`Registration<T>`); the two token maps are modelled
as association lists in insertion order. -/
structure Registration (T : Type) where
  nextHandle : Nat
  attrs : List Attribute
  writeHandles : List (Nat × T)
  notifyOrIndicateHandles : List (T × Nat)

/-- `Registration::new`. -/
def Registration.new {T : Type} : Registration T :=
  ⟨0x0001, [], [], []⟩

/-- `Registration::add_primary_service`. -/
def addPrimaryService {T : Type} (st : Registration T) (uuid : Uuid) :
    Registration T :=
  { st with
    nextHandle := st.nextHandle + 1
    attrs := st.attrs ++ [.service st.nextHandle true uuid] }

/-- `Registration::add_characteristic_internal`: allocate the declaration
handle then the value handle, then the extended-properties / CCC / SCC
descriptors in that order when present; record the token maps. -/
def addCharacteristicInternal {T : Type} (st : Registration T)
    (token : Option T) (uuid : Uuid) (val : List Nat) (properties : Nat) :
    Registration T :=
  let declHandle := st.nextHandle
  let valHandle := st.nextHandle + 1
  let perm := propsPerm properties
  let writable := perm.writeable
  let notify := propsContains properties 0x0010
  let indicate := propsContains properties 0x0020
  let broadcast := propsContains properties 0x0001
  let pe := propsSplit properties
  let attrs1 := st.attrs ++
    [.characteristic declHandle pe.1 valHandle uuid,
     .characteristicValue valHandle uuid val perm]
  let n1 := st.nextHandle + 2
  let attrs2 := if pe.2 ≠ 0 then
      attrs1 ++ [.characteristicExtendedProperties n1 pe.2]
    else attrs1
  let n2 := if pe.2 ≠ 0 then n1 + 1 else n1
  let noi := if notify || indicate then
      match token with
      | some t => st.notifyOrIndicateHandles ++ [(t, valHandle)]
      | none => st.notifyOrIndicateHandles
    else st.notifyOrIndicateHandles
  let attrs3 := if notify || indicate then
      attrs2 ++ [.clientCharacteristicConfiguration n2 0 ⟨true, true, false, false⟩]
    else attrs2
  let n3 := if notify || indicate then n2 + 1 else n2
  let attrs4 := if broadcast then
      attrs3 ++ [.serverCharacteristicConfiguration n3 0 ⟨true, true, false, false⟩]
    else attrs3
  let n4 := if broadcast then n3 + 1 else n3
  let wh := if writable then
      match token with
      | some t => st.writeHandles ++ [(valHandle, t)]
      | none => st.writeHandles
    else st.writeHandles
  { nextHandle := n4
    attrs := attrs4
    writeHandles := wh
    notifyOrIndicateHandles := noi }

/-- `Registration::add_descriptor`. -/
def addDescriptor {T : Type} (st : Registration T) (uuid : Uuid)
    (val : List Nat) (writable : Bool) : Registration T :=
  { st with
    nextHandle := st.nextHandle + 1
    attrs := st.attrs ++
      [.descriptor st.nextHandle uuid val
        (if writable then ⟨true, true, false, false⟩ else ⟨true, false, false, false⟩)] }

/-- One call to the public builder interface. -/
inductive RegOp (T : Type)
  | primaryService (uuid : Uuid)
  | characteristic (token : Option T) (uuid : Uuid) (val : List Nat)
      (properties : Nat)
  | descriptor (uuid : Uuid) (val : List Nat) (writable : Bool)

/-- Apply one builder call. -/
def applyRegOp {T : Type} (st : Registration T) : RegOp T → Registration T
  | .primaryService u => addPrimaryService st u
  | .characteristic tok u v p => addCharacteristicInternal st tok u v p
  | .descriptor u v w => addDescriptor st u v w

/-- A whole builder session from `Registration::new`. -/
def buildRegistration {T : Type} (ops : List (RegOp T)) : Registration T :=
  ops.foldl applyRegOp Registration.new

/-- `Registration::build`: the attribute list becomes the `Database` (the
`BTreeMap` collects the already handle-ascending attributes), together with
the two token maps. -/
def Registration.build {T : Type} (st : Registration T) :
    Database × List (Nat × T) × List (T × Nat) :=
  (st.attrs, st.writeHandles, st.notifyOrIndicateHandles)

/-!
## GATT handler (`gatt/src/server.rs`) and connection MTU update
(`att/src/server.rs`, `att/src/server2.rs`)
-/

/-- A GATT application event (`Event::Write`). -/
inductive GattEvent (T : Type)
  | write (token : T) (value : List Nat)

/-- The `GattHandler` state: database, `write_tokens` map, one received-event
list per registered subscriber (`events_txs`), and the authenticated flag. -/
structure GattState (T : Type) where
  db : Database
  writeTokens : List (Nat × T)
  eventsTxs : List (List (GattEvent T))
  authenticated : Bool

/-- `write_tokens.get(handle)`. -/
def lookupToken {T : Type} (l : List (Nat × T)) (h : Nat) : Option T :=
  (l.find? fun p => p.1 == h).map (·.2)

/-- `GattHandler::handle_write_request`: send the `Write` event to every
subscriber when the handle is tokened, then perform the database write; the
result is `Ok` (a `WriteResponse`) or the `ErrorResponse` data. -/
def handleWriteRequest {T : Type} (st : GattState T) (handle : Nat)
    (value : List Nat) : GattState T × Except (Nat × ErrorCode) Unit :=
  let txs := match lookupToken st.writeTokens handle with
    | some token => st.eventsTxs.map (· ++ [.write token value])
    | none => st.eventsTxs
  match dbWrite st.db handle value false false with
  | .ok db2 => ({ st with db := db2, eventsTxs := txs }, .ok ())
  | .error err => ({ st with eventsTxs := txs }, .error err)

/-- `GattHandler::handle_write_command`: same event emission; a database
error is only logged. -/
def handleWriteCommand {T : Type} (st : GattState T) (handle : Nat)
    (value : List Nat) : GattState T :=
  let txs := match lookupToken st.writeTokens handle with
    | some token => st.eventsTxs.map (· ++ [.write token value])
    | none => st.eventsTxs
  match dbWrite st.db handle value false false with
  | .ok db2 => { st with db := db2, eventsTxs := txs }
  | .error _ => { st with eventsTxs := txs }

/-- `GattHandler::handle_signed_write_command`: same shape, with
`authenticated = true` passed to the write. -/
def handleSignedWriteCommand {T : Type} (st : GattState T) (handle : Nat)
    (value : List Nat) : GattState T :=
  let txs := match lookupToken st.writeTokens handle with
    | some token => st.eventsTxs.map (· ++ [.write token value])
    | none => st.eventsTxs
  match dbWrite st.db handle value false true with
  | .ok db2 => { st with db := db2, eventsTxs := txs }
  | .error _ => { st with eventsTxs := txs }

/-- Outcome of a GATT request handler: a response payload, an error
response, or a Rust panic. -/
inductive HRes (α : Type)
  | ok (a : α)
  | err (h : Nat) (e : ErrorCode)
  | panicked
  deriving Repr, DecidableEq

/-- `GattHandler::handle_read_blob_request`: read the attribute, then slice
`r[offset..]`; slicing past the end of the value (`offset > r.len()`)
panics. -/
def handleReadBlobRequest {T : Type} (st : GattState T) (handle offset : Nat) :
    HRes (List Nat) :=
  match dbRead st.db handle false st.authenticated with
  | .error (h, e) => .err h e
  | .ok r => if offset ≤ r.length then .ok (r.drop offset) else .panicked

/-- `GattHandler::handle_exchange_mtu_request` echoes the client's MTU. -/
def gattExchangeMtu (clientRxMtu : Nat) : Nat := clientRxMtu

/-- The MTU-relevant state of `att::server::Connection::run`: the `mtu`
local used for truncation, the read buffer length and the write buffer
capacity. -/
structure ConnState where
  mtu : Nat
  rbufLen : Nat
  wbufCap : Nat
  deriving Repr, DecidableEq

/-- The initial state: `DEFAULT_MTU = 23` everywhere. -/
def connInit : ConnState := ⟨23, 23, 23⟩

/-- The `ExchangeMtuResponse` arm of `Connection::run`: `mtu` and the read
buffer take the responded `server_rx_mtu`, the write buffer the request's
`client_rx_mtu`. -/
def exchangeMtuUpdate (_ : ConnState) (clientRxMtu serverRxMtu : Nat) :
    ConnState :=
  ⟨serverRxMtu, serverRxMtu, clientRxMtu⟩

/-- The MTU-relevant state of `server2::PacketStream`: the two buffer
lengths; `txmtu()` (the send buffer length) is what `respond` passes to
`truncate`. -/
structure Conn2State where
  rxbufLen : Nat
  txbufLen : Nat
  deriving Repr, DecidableEq

/-- `PacketStream::new`: both buffers sized `DEFAULT_MTU = 23`. -/
def conn2Init : Conn2State := ⟨23, 23⟩

/-- The `ExchangeMtuRequest` arm of `server2::handle`:
`set_txmtu(client_rx_mtu)` and `set_rxmtu(server_rx_mtu)`. -/
def exchangeMtuUpdate2 (_ : Conn2State) (clientRxMtu serverRxMtu : Nat) :
    Conn2State :=
  ⟨serverRxMtu, clientRxMtu⟩

/-- `Attribute::get` as an `Option`, for stating which reads succeed. -/
def Attribute.getOk (a : Attribute) (az an : Bool) : Option (List Nat) :=
  (a.get az an).toOption

/-!
## Concrete instances used by counterexamples and witnesses
-/

/-- A one-service database: a primary service declaration at handle 1
followed by a readable characteristic value at handle 2. -/
def dbOneService : Database :=
  [.service 1 true (.uuid16 0x1800),
   .characteristicValue 2 (.uuid16 0x2A00) [] ⟨true, false, false, false⟩]

/-- Two primary services with 16-bit and 128-bit UUIDs: their rendered
group values have lengths 2 and 16. -/
def dbTwoWidths : Database :=
  [.service 1 true (.uuid16 0x1800),
   .service 2 true (.uuid128 0x1234)]

/-- A handler state with one subscriber and a token on a writable
characteristic value that requires authorization: the state produced by
`add_characteristic_with_token` for `WRITE | AUTHORIZATION_REQUIRED`. -/
def c3State : GattState Nat :=
  { db := [.characteristicValue 2 (.uuid16 0x2A00) [] ⟨false, true, true, false⟩]
    writeTokens := [(2, 7)]
    eventsTxs := [[]]
    authenticated := false }

/-- A handler state whose handle 1 is a readable characteristic value of
length 0. -/
def c10State : GattState Nat :=
  { db := [.characteristicValue 1 (.uuid16 0x2A00) [] ⟨true, false, false, false⟩]
    writeTokens := []
    eventsTxs := []
    authenticated := false }

/-!
## Theorems
-/

/-- C1: deciding evidence against the universal codec round trip
`decode(encode(v)) == v`.  Encoding a Find Information Response with one
128-bit entry produces 19 bytes (format byte 0x02 plus an 18-byte entry),
but the decoder divides the remaining 18 bytes by the wrong entry length 24
and silently returns the empty list; a Read By Type Response with an empty
list encodes to the single byte 0x00, whose decoding divides by zero. -/
theorem C1_roundtrip_fails_on_128bit_and_empty_lists :
    decodeEncode (.findInformationResponse [(1, .uuid128 99)]) =
      some (.ok (.findInformationResponse [])
        [1, 0, 99, 0, 0, 0, 0, 0, 0, 0, 0, 0, 0, 0, 0, 0, 0, 0]) ∧
    Packet.findInformationResponse [] ≠
      Packet.findInformationResponse [(1, .uuid128 99)] ∧
    decodeEncode (.readByTypeResponse []) = some .abort ∧
    decodeEncode (.findInformationResponse []) =
      some (.err (.unexpected "unexpected format 0")) := by
  refine ⟨rfl, by decide, rfl, rfl⟩

/-- C4: the PDU decoder does not return a decode error on the byte strings
`09 00` and `09 00 01 00`; the zero entry-length byte makes
`buf.remaining() / len` a division by zero, a panic. -/
theorem C4_unpack_panics_on_zero_length_byte :
    unpackPacket [0x09, 0x00] = .abort ∧
    unpackPacket [0x09, 0x00, 0x01, 0x00] = .abort ∧
    unpackPacket [0x11, 0x00] = .abort := ⟨rfl, rfl, rfl⟩

/-- C10: a Read Blob Request whose offset exceeds the value length panics:
reading handle 1 (a readable value of length 0) at offset 1 slices
`r[1..]` out of range instead of producing an error response or an empty
value.  Offsets up to the value length still succeed with the bytes from
the offset onward. -/
theorem C10_read_blob_panics_past_end :
    handleReadBlobRequest c10State 1 1 = .panicked ∧
    handleReadBlobRequest c10State 1 0 = .ok [] := ⟨rfl, rfl⟩

/-- C8: every ranged Database operation rejects a range whose start is
0x0000 or exceeds its end with `InvalidHandle` reported at the start
handle (the operations are read-only, so the database is untouched). -/
theorem C8_range_validity (db : Database) (start e : Nat) (u : Uuid)
    (u16 : Nat) (v : List Nat) (az an : Bool) (h : start = 0 ∨ e < start) :
    dbReadByGroupType db start e u az an = .error (start, .invalidHandle) ∧
    dbFindByTypeValue db start e u16 v az an = .error (start, .invalidHandle) ∧
    dbReadByType db start e u az an = .error (start, .invalidHandle) ∧
    dbFindInformation db start e = .error (start, .invalidHandle) := by
  have h1 : dbReadByGroupType db start e (.uuid16 u16) az an =
      .error (start, .invalidHandle) := by
    unfold dbReadByGroupType; rw [if_pos h]
  refine ⟨by unfold dbReadByGroupType; rw [if_pos h],
    by unfold dbFindByTypeValue; rw [h1],
    by unfold dbReadByType; rw [if_pos h],
    by unfold dbFindInformation; rw [if_pos h]⟩

/-- Witness for C8 at the concrete range `[0x0002, 0x0001]`. -/
theorem C8_witness :
    dbReadByGroupType dbOneService 2 1 (.uuid16 0x2800) false false =
      .error (2, .invalidHandle) ∧
    dbFindByTypeValue dbOneService 2 1 0x2800 [] false false =
      .error (2, .invalidHandle) ∧
    dbReadByType dbOneService 2 1 (.uuid16 0x2800) false false =
      .error (2, .invalidHandle) ∧
    dbFindInformation dbOneService 2 1 = .error (2, .invalidHandle) :=
  C8_range_validity dbOneService 2 1 (.uuid16 0x2800) 0x2800 [] false false
    (Or.inr (by decide))

/-- C2 counterexample: no draft adopts `min(client_rx_mtu, server_rx_mtu)`.
With `client_rx_mtu = 50` and a response carrying `server_rx_mtu = 100`,
`Connection::run` sets the truncation MTU to 100 (not `min = 50`), and the
two buffers get the two different sizes, so there is no single working
MTU either. -/
theorem C2_mtu_not_min_counterexample :
    (exchangeMtuUpdate connInit 50 100).mtu = 100 ∧
    (100 : Nat) ≠ min 50 100 ∧
    (exchangeMtuUpdate connInit 50 100).wbufCap ≠
      (exchangeMtuUpdate connInit 50 100).rbufLen ∧
    (exchangeMtuUpdate2 conn2Init 50 100).txbufLen = 50 ∧
    (exchangeMtuUpdate2 conn2Init 50 100).rxbufLen = 100 := by decide

/-- C2 amended: before any exchange every MTU is 23.  On a successful
exchange, `att::server::Connection::run` adopts the response's
`server_rx_mtu` for truncation and the read buffer and the request's
`client_rx_mtu` for the write buffer; `server2` sizes the send buffer (its
truncation MTU) with `client_rx_mtu` and the receive buffer with
`server_rx_mtu`.  The repository's handlers echo `client_rx_mtu`, so in
the composed server all these values coincide with
`min(client_rx_mtu, server_rx_mtu)`. -/
theorem C2_mtu_update_amended (st : ConnState) (st2 : Conn2State) (c s : Nat) :
    connInit = ⟨23, 23, 23⟩ ∧ conn2Init = ⟨23, 23⟩ ∧
    exchangeMtuUpdate st c s = ⟨s, s, c⟩ ∧
    exchangeMtuUpdate2 st2 c s = ⟨s, c⟩ ∧
    gattExchangeMtu c = c ∧
    (exchangeMtuUpdate st c (gattExchangeMtu c)).mtu =
      min c (gattExchangeMtu c) := by
  refine ⟨rfl, rfl, rfl, rfl, rfl, ?_⟩
  simp [exchangeMtuUpdate, gattExchangeMtu]

/-- C3 counterexample: a Write Request to a tokened handle whose database
write fails (authorization required) still sends the `Write` event to the
subscriber, so emission is not conditioned on the write succeeding. -/
theorem C3_event_emitted_on_failed_write :
    (handleWriteRequest c3State 2 [1]).2 =
      .error (2, .insufficientAuthorization) ∧
    (handleWriteRequest c3State 2 [1]).1.eventsTxs = [[.write 7 [1]]] :=
  ⟨rfl, rfl⟩

/-- C3 amended: for a write request, write command or signed write command
on a tokened handle, every registered subscriber receives the
`Write(token, bytes)` event exactly once, before and regardless of whether
the database write succeeds; untokened handles emit nothing; the request's
response is `Ok(WriteResponse)` exactly when the database write succeeds,
and the database is updated exactly by the write's result. -/
theorem C3_write_event_emission {T : Type} (st : GattState T) (h : Nat)
    (v : List Nat) :
    (∀ t, lookupToken st.writeTokens h = some t →
      (handleWriteRequest st h v).1.eventsTxs =
          st.eventsTxs.map (· ++ [.write t v]) ∧
      (handleWriteCommand st h v).eventsTxs =
          st.eventsTxs.map (· ++ [.write t v]) ∧
      (handleSignedWriteCommand st h v).eventsTxs =
          st.eventsTxs.map (· ++ [.write t v])) ∧
    (lookupToken st.writeTokens h = none →
      (handleWriteRequest st h v).1.eventsTxs = st.eventsTxs ∧
      (handleWriteCommand st h v).eventsTxs = st.eventsTxs ∧
      (handleSignedWriteCommand st h v).eventsTxs = st.eventsTxs) ∧
    ((handleWriteRequest st h v).2 = (dbWrite st.db h v false false).map
      fun _ => ()) ∧
    ((handleWriteRequest st h v).1.db =
      match dbWrite st.db h v false false with
      | .ok db2 => db2
      | .error _ => st.db) := by
  refine ⟨fun t ht => ?_, fun ht => ?_, ?_, ?_⟩ <;>
    simp only [handleWriteRequest, handleWriteCommand,
      handleSignedWriteCommand] <;>
    first
      | (rw [ht]; cases dbWrite st.db h v false false <;>
          cases dbWrite st.db h v false true <;> simp)
      | (cases hw : dbWrite st.db h v false false <;>
          simp [Except.map, hw])

/-- Witness for C3's amended theorem at the concrete state of the
counterexample. -/
theorem C3_write_event_emission_witness :
    (handleWriteRequest c3State 2 [1]).1.eventsTxs =
      c3State.eventsTxs.map (· ++ [.write 7 [1]]) :=
  ((C3_write_event_emission c3State 2 [1]).1 7 rfl).1

/-- C5 counterexample: with a single primary service at handle 1 followed
by one more attribute at handle 2 and no further service declaration, the
read-by-group-type traversal reports the final group as ending at handle
2 — the last observed attribute handle — not at 0xFFFF as the claim
states. -/
theorem C5_final_group_not_ffff :
    dbReadByGroupType dbOneService 1 0xFFFF (.uuid16 0x2800) false false =
      .ok [(1, 2, [0x00, 0x18])] ∧ (2 : Nat) ≠ 0xFFFF :=
  ⟨rfl, by decide⟩

/-- When the scan loop of `read_by_group_type` runs off the end of the
range, the `last` it carries is the handle of the final attribute of the
range (it is updated to the key on every iteration). -/
theorem rbgtGo_done_last (u : Uuid) (az an : Bool) :
    ∀ (l : List Attribute) (r : List (Nat × Nat × List Nat))
      (c : Option (Nat × List Nat)) (last : Nat) (vl : Option Nat)
      (r' : List (Nat × Nat × List Nat)) (c' : Option (Nat × List Nat))
      (l' : Nat),
      rbgtGo u az an l r c last vl = .done r' c' l' →
      (l = [] ∧ r' = r ∧ c' = c ∧ l' = last) ∨
      (∃ a, l.getLast? = some a ∧ l' = a.handle) := by
  intro l
  induction l with
  | nil =>
    intro r c last vl r' c' l' h
    simp only [rbgtGo, RbgtExit.done.injEq] at h
    exact Or.inl ⟨rfl, h.1.symm, h.2.1.symm, h.2.2.symm⟩
  | cons a rest ih =>
    intro r c last vl r' c' l' h
    have step : ∀ (r2 : List (Nat × Nat × List Nat))
        (c2 : Option (Nat × List Nat)) (vl2 : Option Nat),
        rbgtGo u az an rest r2 c2 a.handle vl2 = .done r' c' l' →
        (∃ b, (a :: rest).getLast? = some b ∧ l' = b.handle) := by
      intro r2 c2 vl2 h2
      rcases ih r2 c2 a.handle vl2 r' c' l' h2 with ⟨hnil, _, _, hl⟩ | ⟨b, hb, hl⟩
      · subst hnil
        exact ⟨a, rfl, hl⟩
      · refine ⟨b, ?_, hl⟩
        cases rest with
        | nil => simp at hb
        | cons x xs => rw [List.getLast?_cons_cons]; exact hb
    simp only [rbgtGo] at h
    by_cases hm : a.attrType = u
    · rw [if_pos hm] at h
      cases hg : a.get az an with
      | error e =>
        simp only [hg] at h
        exact absurd h (by simp)
      | ok b =>
        simp only [hg] at h
        cases c with
        | none =>
          cases vl with
          | none => exact Or.inr (step _ _ _ h)
          | some len =>
            by_cases hlen : len ≠ b.length
            · simp only [if_pos hlen] at h
              exact absurd h (by simp)
            · simp only [if_neg hlen] at h
              exact Or.inr (step _ _ _ h)
        | some cc =>
          by_cases hlen : cc.2.length ≠ b.length
          · simp only [if_pos hlen] at h
            exact absurd h (by simp)
          · simp only [if_neg hlen] at h
            exact Or.inr (step _ _ _ h)
    · rw [if_neg hm] at h
      exact Or.inr (step _ _ _ h)

/-- C5 amended: when the traversal reaches the end of a valid range with a
group still open (the last matching service declaration), the reported
group is closed at the handle of the last attribute observed in the range
— not at the handle before the next declaration and not at 0xFFFF. -/
theorem C5_final_group_ends_at_last_observed_handle (db : Database)
    (start e : Nat) (u : Uuid) (az an : Bool)
    (r : List (Nat × Nat × List Nat)) (cur : Nat × List Nat) (last : Nat)
    (hv : ¬(start = 0 ∨ e < start))
    (hdone : rbgtGo u az an (rangeAttrs db start e) [] none 0 none =
      .done r (some cur) last) :
    dbReadByGroupType db start e u az an = .ok (r ++ [(cur.1, last, cur.2)]) ∧
    (rangeAttrs db start e).getLast?.map Attribute.handle = some last := by
  constructor
  · unfold dbReadByGroupType
    rw [if_neg hv, hdone]
  · rcases rbgtGo_done_last u az an (rangeAttrs db start e) [] none 0 none
        r (some cur) last hdone with ⟨_, _, hc, _⟩ | ⟨b, hb, hl⟩
    · exact absurd hc (by simp)
    · rw [hb, hl]; rfl

/-- Witness for C5's amended theorem on the one-service database. -/
theorem C5_amended_witness :
    dbReadByGroupType dbOneService 1 0xFFFF (.uuid16 0x2800) false false =
      .ok ([] ++ [(1, 2, [0x00, 0x18])]) ∧
    (rangeAttrs dbOneService 1 0xFFFF).getLast?.map Attribute.handle =
      some 2 :=
  C5_final_group_ends_at_last_observed_handle dbOneService 1 0xFFFF
    (.uuid16 0x2800) false false [] (1, [0x00, 0x18]) 2 (by decide) rfl

/-- A packed little-endian integer occupies exactly its width. -/
theorem uLEPack_length (w v : Nat) : (uLEPack w v).length = w := by
  simp [uLEPack]

/-- The entries kept by the greedy truncation loop have total size at most
the starting budget. -/
theorem sum_take_truncCount {α : Type} (sz : α → Nat) :
    ∀ (l : List α) (r : Nat), ((l.take (truncCount sz r l)).map sz).sum ≤ r := by
  intro l
  induction l with
  | nil => intro r; simp [truncCount]
  | cons x xs ih =>
    intro r
    by_cases hx : sz x > r
    · simp [truncCount, hx]
    · simp only [truncCount, if_neg hx]
      rw [Nat.add_comm 1 (truncCount sz (r - sz x) xs)]
      simp only [List.take_succ_cons, List.map_cons, List.sum_cons]
      have := ih (r - sz x)
      omega

/-- A uniform-width `(Handle, Uuid)` list packs without panic, one `Size`
worth of bytes per entry. -/
theorem packEntriesHU_uniform (fmt : Nat) :
    ∀ l : List (Nat × Uuid),
      (∀ e ∈ l,
        (match e.2 with | .uuid16 _ => (1 : Nat) | .uuid128 _ => 2) = fmt) →
      ∃ bs, packEntriesHU fmt l = some bs ∧ bs.length = (l.map huSize).sum := by
  intro l
  induction l with
  | nil => intro _; exact ⟨[], rfl, rfl⟩
  | cons e rest ih =>
    intro hl
    obtain ⟨bs, hbs, hlen⟩ := ih fun x hx => hl x (List.mem_cons_of_mem _ hx)
    have he := hl e (List.mem_cons_self _ _)
    obtain ⟨h, u2⟩ := e
    cases u2 with
    | uuid16 v =>
      simp only at he
      subst he
      refine ⟨uLEPack 2 h ++ uLEPack 2 v ++ bs, ?_, ?_⟩
      · simp [packEntriesHU, huEntryPack, hbs]
      · simp [uLEPack_length, hlen, huSize]
        omega
    | uuid128 v =>
      simp only at he
      subst he
      refine ⟨uLEPack 2 h ++ uLEPack 16 v ++ bs, ?_, ?_⟩
      · simp [packEntriesHU, huEntryPack, hbs]
      · simp [uLEPack_length, hlen, huSize]
        omega

/-- A uniform `(Handle, Uuid)` list packs to at most one format byte plus
its entries' total `Size`. -/
theorem packListHU_uniform :
    ∀ l : List (Nat × Uuid), huUniform l →
      ∃ bs, packListHU l = some bs ∧ bs.length ≤ 1 + (l.map huSize).sum := by
  intro l hu
  cases l with
  | nil => exact ⟨[0], rfl, by simp⟩
  | cons hd tl =>
    obtain ⟨hh, u2⟩ := hd
    cases u2 with
    | uuid16 v =>
      have hall : ∀ e ∈ (hh, Uuid.uuid16 v) :: tl,
          (match e.2 with | .uuid16 _ => (1 : Nat) | .uuid128 _ => 2) = 1 :=
        fun e he => hu e he (hh, Uuid.uuid16 v) (List.mem_cons_self _ _)
      obtain ⟨bs, hbs, hlen⟩ := packEntriesHU_uniform 1 _ hall
      exact ⟨1 :: bs, by simp [packListHU, hbs], by simp [hlen]; omega⟩
    | uuid128 v =>
      have hall : ∀ e ∈ (hh, Uuid.uuid128 v) :: tl,
          (match e.2 with | .uuid16 _ => (1 : Nat) | .uuid128 _ => 2) = 2 :=
        fun e he => hu e he (hh, Uuid.uuid128 v) (List.mem_cons_self _ _)
      obtain ⟨bs, hbs, hlen⟩ := packEntriesHU_uniform 2 _ hall
      exact ⟨2 :: bs, by simp [packListHU, hbs], by simp [hlen]; omega⟩

/-- A uniform-length `(Handle, bytes)` list packs without panic, one `Size`
worth of bytes per entry. -/
theorem packEntriesHB_uniform (len : Nat) :
    ∀ l : List (Nat × List Nat), (∀ e ∈ l, e.2.length = len) →
      ∃ bs, packEntriesHB len l = some bs ∧ bs.length = (l.map hbSize).sum := by
  intro l
  induction l with
  | nil => intro _; exact ⟨[], rfl, rfl⟩
  | cons e rest ih =>
    intro hl
    obtain ⟨bs, hbs, hlen⟩ := ih fun x hx => hl x (List.mem_cons_of_mem _ hx)
    have he := hl e (List.mem_cons_self _ _)
    refine ⟨uLEPack 2 e.1 ++ e.2 ++ bs, ?_, ?_⟩
    · simp [packEntriesHB, he, hbs]
    · simp [uLEPack_length, hlen, hbSize]
      omega

/-- A uniform `(Handle, bytes)` list packs to at most one length byte plus
its entries' total `Size`. -/
theorem packListHB_uniform :
    ∀ l : List (Nat × List Nat), hbUniform l →
      ∃ bs, packListHB l = some bs ∧ bs.length ≤ 1 + (l.map hbSize).sum := by
  intro l hu
  cases l with
  | nil => exact ⟨[0], rfl, by simp⟩
  | cons hd tl =>
    have hall : ∀ e ∈ hd :: tl, e.2.length = hd.2.length :=
      fun e he => hu e he hd (List.mem_cons_self _ _)
    obtain ⟨bs, hbs, hlen⟩ := packEntriesHB_uniform hd.2.length _ hall
    exact ⟨(hd.2.length + 2) % 256 :: bs, by simp [packListHB, hbs],
      by simp [hlen]; omega⟩

/-- A uniform-length `(Handle, Handle, bytes)` list packs without panic. -/
theorem packEntriesHHB_uniform (len : Nat) :
    ∀ l : List (Nat × Nat × List Nat), (∀ e ∈ l, e.2.2.length = len) →
      ∃ bs, packEntriesHHB len l = some bs ∧ bs.length = (l.map hhbSize).sum := by
  intro l
  induction l with
  | nil => intro _; exact ⟨[], rfl, rfl⟩
  | cons e rest ih =>
    intro hl
    obtain ⟨bs, hbs, hlen⟩ := ih fun x hx => hl x (List.mem_cons_of_mem _ hx)
    have he := hl e (List.mem_cons_self _ _)
    refine ⟨uLEPack 2 e.1 ++ uLEPack 2 e.2.1 ++ e.2.2 ++ bs, ?_, ?_⟩
    · simp [packEntriesHHB, he, hbs]
    · simp [uLEPack_length, hlen, hhbSize]
      omega

/-- A uniform `(Handle, Handle, bytes)` list packs to at most one length
byte plus its entries' total `Size`. -/
theorem packListHHB_uniform :
    ∀ l : List (Nat × Nat × List Nat), hhbUniform l →
      ∃ bs, packListHHB l = some bs ∧ bs.length ≤ 1 + (l.map hhbSize).sum := by
  intro l hu
  cases l with
  | nil => exact ⟨[0], rfl, by simp⟩
  | cons hd tl =>
    have hall : ∀ e ∈ hd :: tl, e.2.2.length = hd.2.2.length :=
      fun e he => hu e he hd (List.mem_cons_self _ _)
    obtain ⟨bs, hbs, hlen⟩ := packEntriesHHB_uniform hd.2.2.length _ hall
    exact ⟨(hd.2.2.length + 4) % 256 :: bs, by simp [packListHHB, hbs],
      by simp [hlen]; omega⟩

/-- A handles-information list packs to one `Size` worth of bytes per
entry. -/
theorem hilPack_length :
    ∀ l : List (Nat × Nat), (hilPack l).length = (l.map hhSize).sum := by
  intro l
  induction l with
  | nil => rfl
  | cons p rest ih =>
    simp [hilPack, hhSize, uLEPack_length] at *
    omega

/-- C7: for every working MTU `m ≥ 23`, each list response truncates to a
prefix of its entries whose full encoding — opcode and format/length
header included (2 header bytes for the list PDUs, 1 for Find By Type
Value) — fits in `m` bytes; the Read, Read Blob and Read Multiple
response values are cut to at most `m - 1` bytes.  The list parts assume
the well-formedness the packer requires (one UUID width, respectively one
value length, per response). -/
theorem C7_truncation_bounded (m : Nat) (hm : 23 ≤ m) :
    (∀ vs, huUniform vs → ∃ bs,
      packPacket (.findInformationResponse (fiTruncate vs m)) = some bs ∧
      bs.length ≤ m ∧ ∃ k, fiTruncate vs m = vs.take k) ∧
    (∀ vs, ∃ bs,
      packPacket (.findByTypeValueResponse (fbtvTruncate vs m)) = some bs ∧
      bs.length ≤ m ∧ ∃ k, fbtvTruncate vs m = vs.take k) ∧
    (∀ vs, hbUniform vs → ∃ bs,
      packPacket (.readByTypeResponse (rbtTruncate vs m)) = some bs ∧
      bs.length ≤ m ∧ ∃ k, rbtTruncate vs m = vs.take k) ∧
    (∀ vs, hhbUniform vs → ∃ bs,
      packPacket (.readByGroupTypeResponse (rbgtTruncate vs m)) = some bs ∧
      bs.length ≤ m ∧ ∃ k, rbgtTruncate vs m = vs.take k) ∧
    (∀ v, (readResponseTruncate v m).length ≤ m - 1) ∧
    (∀ v, (readBlobResponseTruncate v m).length ≤ m - 1) ∧
    (∀ v, (readMultipleResponseTruncate v m).length ≤ m - 1) := by
  have hval : ∀ v : List Nat,
      (if v.length > m - 1 then v.take (m - 1) else v).length ≤ m - 1 := by
    intro v
    by_cases hv : v.length > m - 1
    · simp [hv]
    · simp [hv]; omega
  refine ⟨?_, ?_, ?_, ?_, fun v => hval v, fun v => hval v, fun v => hval v⟩
  · intro vs hvs
    have hu2 : huUniform (fiTruncate vs m) := fun e1 h1 e2 h2 =>
      hvs e1 (List.take_subset _ _ h1) e2 (List.take_subset _ _ h2)
    obtain ⟨bs, hbs, hlen⟩ := packListHU_uniform _ hu2
    refine ⟨0x05 :: bs, by simp [packPacket, hbs], ?_,
      ⟨truncCount huSize (m - 2) vs, rfl⟩⟩
    have hsum := sum_take_truncCount huSize vs (m - 2)
    simp only [List.length_cons]
    unfold fiTruncate at hlen
    omega
  · intro vs
    refine ⟨0x07 :: hilPack (fbtvTruncate vs m), rfl, ?_,
      ⟨truncCount hhSize (m - 1) vs, rfl⟩⟩
    have hsum := sum_take_truncCount hhSize vs (m - 1)
    have hlen := hilPack_length (fbtvTruncate vs m)
    simp only [List.length_cons]
    simp only [fbtvTruncate] at hlen ⊢
    omega
  · intro vs hvs
    have hu2 : hbUniform (rbtTruncate vs m) := fun e1 h1 e2 h2 =>
      hvs e1 (List.take_subset _ _ h1) e2 (List.take_subset _ _ h2)
    obtain ⟨bs, hbs, hlen⟩ := packListHB_uniform _ hu2
    refine ⟨0x09 :: bs, by simp [packPacket, hbs], ?_,
      ⟨truncCount hbSize (m - 2) vs, rfl⟩⟩
    have hsum := sum_take_truncCount hbSize vs (m - 2)
    simp only [List.length_cons]
    unfold rbtTruncate at hlen
    omega
  · intro vs hvs
    have hu2 : hhbUniform (rbgtTruncate vs m) := fun e1 h1 e2 h2 =>
      hvs e1 (List.take_subset _ _ h1) e2 (List.take_subset _ _ h2)
    obtain ⟨bs, hbs, hlen⟩ := packListHHB_uniform _ hu2
    refine ⟨0x11 :: bs, by simp [packPacket, hbs], ?_,
      ⟨truncCount hhbSize (m - 2) vs, rfl⟩⟩
    have hsum := sum_take_truncCount hhbSize vs (m - 2)
    simp only [List.length_cons]
    unfold rbgtTruncate at hlen
    omega

/-- Witness for C7 at `m = 23` on a two-entry Find Information list. -/
theorem C7_truncation_witness :
    ∃ bs, packPacket (.findInformationResponse
        (fiTruncate [(1, .uuid16 0x2902), (2, .uuid16 0x2904)] 23)) =
        some bs ∧
      bs.length ≤ 23 ∧
      ∃ k, fiTruncate [(1, .uuid16 0x2902), (2, .uuid16 0x2904)] 23 =
        [(1, .uuid16 0x2902), (2, .uuid16 0x2904)].take k :=
  (C7_truncation_bounded 23 (by decide)).1
    [(1, .uuid16 0x2902), (2, .uuid16 0x2904)] (by unfold huUniform; decide)

/-- Each builder call appends a block of attributes whose handles continue
the `next_handle` counter consecutively, and advances the counter by the
block length. -/
theorem applyRegOp_handles {T : Type} (st : Registration T) (op : RegOp T) :
    ∃ new : List Attribute,
      (applyRegOp st op).attrs = st.attrs ++ new ∧
      new.map Attribute.handle = List.range' st.nextHandle new.length ∧
      (applyRegOp st op).nextHandle = st.nextHandle + new.length := by
  cases op with
  | primaryService u =>
    exact ⟨[.service st.nextHandle true u], rfl, rfl, rfl⟩
  | descriptor u v w =>
    exact ⟨[.descriptor st.nextHandle u v
      (if w then ⟨true, true, false, false⟩ else ⟨true, false, false, false⟩)],
      rfl, rfl, rfl⟩
  | characteristic tok u v p =>
    by_cases h1 : (propsSplit p).2 ≠ 0 <;>
      by_cases h2 : (propsContains p 0x0010 || propsContains p 0x0020) = true <;>
      by_cases h3 : propsContains p 0x0001 = true
    · exact ⟨[.characteristic st.nextHandle (propsSplit p).1 (st.nextHandle + 1) u,
        .characteristicValue (st.nextHandle + 1) u v (propsPerm p),
        .characteristicExtendedProperties (st.nextHandle + 2) (propsSplit p).2,
        .clientCharacteristicConfiguration (st.nextHandle + 3) 0 ⟨true, true, false, false⟩,
        .serverCharacteristicConfiguration (st.nextHandle + 4) 0 ⟨true, true, false, false⟩],
        by simp [applyRegOp, addCharacteristicInternal, h1, h2, h3], rfl,
        by simp [applyRegOp, addCharacteristicInternal, h1, h2, h3]⟩
    · exact ⟨[.characteristic st.nextHandle (propsSplit p).1 (st.nextHandle + 1) u,
        .characteristicValue (st.nextHandle + 1) u v (propsPerm p),
        .characteristicExtendedProperties (st.nextHandle + 2) (propsSplit p).2,
        .clientCharacteristicConfiguration (st.nextHandle + 3) 0 ⟨true, true, false, false⟩],
        by simp [applyRegOp, addCharacteristicInternal, h1, h2, h3], rfl,
        by simp [applyRegOp, addCharacteristicInternal, h1, h2, h3]⟩
    · exact ⟨[.characteristic st.nextHandle (propsSplit p).1 (st.nextHandle + 1) u,
        .characteristicValue (st.nextHandle + 1) u v (propsPerm p),
        .characteristicExtendedProperties (st.nextHandle + 2) (propsSplit p).2,
        .serverCharacteristicConfiguration (st.nextHandle + 3) 0 ⟨true, true, false, false⟩],
        by simp [applyRegOp, addCharacteristicInternal, h1, h2, h3], rfl,
        by simp [applyRegOp, addCharacteristicInternal, h1, h2, h3]⟩
    · exact ⟨[.characteristic st.nextHandle (propsSplit p).1 (st.nextHandle + 1) u,
        .characteristicValue (st.nextHandle + 1) u v (propsPerm p),
        .characteristicExtendedProperties (st.nextHandle + 2) (propsSplit p).2],
        by simp [applyRegOp, addCharacteristicInternal, h1, h2, h3], rfl,
        by simp [applyRegOp, addCharacteristicInternal, h1, h2, h3]⟩
    · exact ⟨[.characteristic st.nextHandle (propsSplit p).1 (st.nextHandle + 1) u,
        .characteristicValue (st.nextHandle + 1) u v (propsPerm p),
        .clientCharacteristicConfiguration (st.nextHandle + 2) 0 ⟨true, true, false, false⟩,
        .serverCharacteristicConfiguration (st.nextHandle + 3) 0 ⟨true, true, false, false⟩],
        by simp [applyRegOp, addCharacteristicInternal, h1, h2, h3], rfl,
        by simp [applyRegOp, addCharacteristicInternal, h1, h2, h3]⟩
    · exact ⟨[.characteristic st.nextHandle (propsSplit p).1 (st.nextHandle + 1) u,
        .characteristicValue (st.nextHandle + 1) u v (propsPerm p),
        .clientCharacteristicConfiguration (st.nextHandle + 2) 0 ⟨true, true, false, false⟩],
        by simp [applyRegOp, addCharacteristicInternal, h1, h2, h3], rfl,
        by simp [applyRegOp, addCharacteristicInternal, h1, h2, h3]⟩
    · exact ⟨[.characteristic st.nextHandle (propsSplit p).1 (st.nextHandle + 1) u,
        .characteristicValue (st.nextHandle + 1) u v (propsPerm p),
        .serverCharacteristicConfiguration (st.nextHandle + 2) 0 ⟨true, true, false, false⟩],
        by simp [applyRegOp, addCharacteristicInternal, h1, h2, h3], rfl,
        by simp [applyRegOp, addCharacteristicInternal, h1, h2, h3]⟩
    · exact ⟨[.characteristic st.nextHandle (propsSplit p).1 (st.nextHandle + 1) u,
        .characteristicValue (st.nextHandle + 1) u v (propsPerm p)],
        by simp [applyRegOp, addCharacteristicInternal, h1, h2, h3], rfl,
        by simp [applyRegOp, addCharacteristicInternal, h1, h2, h3]⟩

/-- The builder invariant: handles are exactly `1, 2, ..., n` in order and
the counter sits at `n + 1`. -/
theorem buildRegistration_invariant {T : Type} :
    ∀ (ops : List (RegOp T)) (st : Registration T),
      st.attrs.map Attribute.handle = List.range' 1 st.attrs.length →
      st.nextHandle = st.attrs.length + 1 →
      (ops.foldl applyRegOp st).attrs.map Attribute.handle =
        List.range' 1 (ops.foldl applyRegOp st).attrs.length ∧
      (ops.foldl applyRegOp st).nextHandle =
        (ops.foldl applyRegOp st).attrs.length + 1 := by
  intro ops
  induction ops with
  | nil => intro st h1 h2; exact ⟨h1, h2⟩
  | cons op rest ih =>
    intro st h1 h2
    obtain ⟨new, hattrs, hmap, hnext⟩ := applyRegOp_handles st op
    have hlen : (applyRegOp st op).attrs.length = st.attrs.length + new.length := by
      rw [hattrs, List.length_append]
    refine ih (applyRegOp st op) ?_ ?_
    · rw [hattrs, List.map_append, h1, hmap, h2, List.length_append]
      have h5 := List.range'_append 1 st.attrs.length new.length 1
      simp only [Nat.one_mul] at h5
      rw [Nat.add_comm 1 st.attrs.length] at h5
      rw [Nat.add_comm st.attrs.length new.length, ← h5]
    · rw [hnext, h2, hlen]
      omega

/-- C9: building any Registration yields attribute handles forming the
strictly ascending gap-free sequence `1, 2, ..., n` (so the Database keys
do too), and each `add_characteristic` call appends exactly: the
declaration at the next handle recording `declaration handle + 1` as its
value handle, the value attribute at that next handle, then the
extended-properties, CCC and SCC descriptors in that order exactly when
the corresponding properties are present. -/
theorem C9_registration_handles {T : Type} :
    (∀ ops : List (RegOp T),
      (buildRegistration ops).attrs.map Attribute.handle =
        List.range' 1 (buildRegistration ops).attrs.length ∧
      (buildRegistration ops).build.1.map Attribute.handle =
        List.range' 1 (buildRegistration ops).attrs.length ∧
      (buildRegistration ops).nextHandle =
        (buildRegistration ops).attrs.length + 1) ∧
    (∀ (st : Registration T) (tok : Option T) (u : Uuid) (v : List Nat)
        (p : Nat),
      (addCharacteristicInternal st tok u v p).attrs =
        st.attrs ++
        [.characteristic st.nextHandle (propsSplit p).1 (st.nextHandle + 1) u,
         .characteristicValue (st.nextHandle + 1) u v (propsPerm p)] ++
        (if (propsSplit p).2 ≠ 0 then
          [.characteristicExtendedProperties (st.nextHandle + 2)
            (propsSplit p).2]
        else []) ++
        (if propsContains p 0x0010 || propsContains p 0x0020 then
          [.clientCharacteristicConfiguration
            (st.nextHandle + 2 + (if (propsSplit p).2 ≠ 0 then 1 else 0)) 0
            ⟨true, true, false, false⟩]
        else []) ++
        (if propsContains p 0x0001 then
          [.serverCharacteristicConfiguration
            (st.nextHandle + 2 + (if (propsSplit p).2 ≠ 0 then 1 else 0) +
              (if propsContains p 0x0010 || propsContains p 0x0020 then 1
               else 0)) 0 ⟨true, true, false, false⟩]
        else [])) := by
  constructor
  · intro ops
    obtain ⟨hmap, hnext⟩ :=
      buildRegistration_invariant ops Registration.new rfl rfl
    exact ⟨hmap, hmap, hnext⟩
  · intro st tok u v p
    by_cases h1 : (propsSplit p).2 ≠ 0 <;>
      by_cases h2 : (propsContains p 0x0010 || propsContains p 0x0020) = true <;>
      by_cases h3 : propsContains p 0x0001 = true <;>
      simp [addCharacteristicInternal, h1, h2, h3]

/-- Splitting a successful `mapM` over a cons. -/
theorem mapM_cons_some {α β : Type} (f : α → Option β) (a : α) (l : List α)
    (vs : List β) (h : (a :: l).mapM f = some vs) :
    ∃ b vs2, f a = some b ∧ l.mapM f = some vs2 ∧ vs = b :: vs2 := by
  rw [List.mapM_cons] at h
  cases hfa : f a with
  | none => rw [hfa] at h; simp at h
  | some b =>
    rw [hfa] at h
    cases hml : l.mapM f with
    | none => rw [hml] at h; simp at h
    | some vs2 =>
      rw [hml] at h
      simp at h
      exact ⟨b, vs2, rfl, rfl, h.symm⟩

/-- A successful optional read is a successful read. -/
theorem getOk_some (a : Attribute) (az an : Bool) (b : List Nat)
    (h : a.getOk az an = some b) : a.get az an = .ok b := by
  unfold Attribute.getOk at h
  cases hg : a.get az an with
  | ok v => rw [hg] at h; simp [Except.toOption] at h; rw [h]
  | error e => rw [hg] at h; simp [Except.toOption] at h

/-- Steady state of the mismatch run: with a group already open on value
`cv`, if the values of the matching attributes ahead keep length
`cv.length` up to index `j` and differ at `j`, the loop takes the early
`return Ok(result)` with exactly the groups of the open value and of the
first `j` matches. -/
theorem rbgtGo_mismatch_steady (u : Uuid) (az an : Bool) :
    ∀ (l : List Attribute) (vs : List (List Nat)) (j : Nat)
      (r : List (Nat × Nat × List Nat)) (ch : Nat) (cv : List Nat)
      (last : Nat) (vl : Option Nat),
      (l.filter fun a => decide (a.attrType = u)).mapM
          (fun a => a.getOk az an) = some vs →
      j < vs.length →
      (∀ i, i < j → (vs.getD i []).length = cv.length) →
      (vs.getD j []).length ≠ cv.length →
      ∃ res, rbgtGo u az an l r (some (ch, cv)) last vl = .earlyOk res ∧
        res.map (fun g => (g.1, g.2.2)) =
          r.map (fun g => (g.1, g.2.2)) ++ (ch, cv) ::
            (((l.filter fun a => decide (a.attrType = u)).map
              Attribute.handle).take j).zip (vs.take j) := by
  intro l
  induction l with
  | nil =>
    intro vs j r ch cv last vl hvs hj _ _
    simp only [List.filter_nil, List.mapM_nil] at hvs
    simp at hvs
    subst hvs
    exact absurd hj (by simp)
  | cons a rest ih =>
    intro vs j r ch cv last vl hvs hj hprev hne
    by_cases hm : a.attrType = u
    · have hfil : (a :: rest).filter (fun a => decide (a.attrType = u)) =
          a :: rest.filter (fun a => decide (a.attrType = u)) := by
        simp [List.filter_cons, hm]
      rw [hfil] at hvs
      obtain ⟨b, vs2, hb, hrest, hvs2⟩ := mapM_cons_some _ _ _ _ hvs
      subst hvs2
      have hget := getOk_some a az an b hb
      cases j with
      | zero =>
        have hlen : cv.length ≠ b.length := by
          simpa using fun h => hne (by simp [h.symm])
        refine ⟨r ++ [(ch, last, cv)], ?_, ?_⟩
        · simp only [rbgtGo, if_pos hm, hget]
          rw [if_pos hlen]
        · simp
      | succ j2 =>
        have hlen : ¬cv.length ≠ b.length := by
          have := hprev 0 (Nat.succ_pos j2)
          simp at this
          simp [this]
        obtain ⟨res, hres, hproj⟩ := ih vs2 j2 (r ++ [(ch, last, cv)])
          a.handle b a.handle (some cv.length) hrest
          (by simpa using Nat.lt_of_succ_lt_succ hj)
          (fun i hi => by
            have := hprev (i + 1) (Nat.succ_lt_succ hi)
            simp at this
            have hb0 : b.length = cv.length := by
              have h0 := hprev 0 (Nat.succ_pos j2)
              simpa using h0
            simpa [hb0] using this)
          (by
            have hb0 : b.length = cv.length := by
              have h0 := hprev 0 (Nat.succ_pos j2)
              simpa using h0
            simpa [hb0] using hne)
        refine ⟨res, ?_, ?_⟩
        · simp only [rbgtGo, if_pos hm, hget]
          rw [if_neg hlen]
          exact hres
        · rw [hproj, hfil]
          simp [List.take_succ_cons]
    · have hfil : (a :: rest).filter (fun a => decide (a.attrType = u)) =
          rest.filter (fun a => decide (a.attrType = u)) := by
        simp [List.filter_cons, hm]
      rw [hfil] at hvs
      obtain ⟨res, hres, hproj⟩ :=
        ih vs j r ch cv a.handle vl hvs hj hprev hne
      refine ⟨res, ?_, ?_⟩
      · simp only [rbgtGo, if_neg hm]
        exact hres
      · rw [hproj, hfil]

/-- A successful `mapM` preserves length. -/
theorem mapM_length {α β : Type} (f : α → Option β) :
    ∀ (l : List α) (vs : List β), l.mapM f = some vs → vs.length = l.length := by
  intro l
  induction l with
  | nil =>
    intro vs h
    simp only [List.mapM_nil] at h
    simp at h
    subst h
    rfl
  | cons a rest ih =>
    intro vs h
    obtain ⟨b, vs2, _, hrest, hvs⟩ := mapM_cons_some f a rest vs h
    subst hvs
    simp [ih vs2 hrest]

/-- Entry into the mismatch run: from the loop's initial state, if the
matching values keep the length of the first one up to index `j` and
differ at `j`, the loop takes the early `return Ok(result)` with exactly
the groups of the first `j` matches. -/
theorem rbgtGo_mismatch_entry (u : Uuid) (az an : Bool) :
    ∀ (l : List Attribute) (vs : List (List Nat)) (j : Nat) (last : Nat),
      (l.filter fun a => decide (a.attrType = u)).mapM
          (fun a => a.getOk az an) = some vs →
      j < vs.length →
      (∀ i, i < j → (vs.getD i []).length = (vs.getD 0 []).length) →
      (vs.getD j []).length ≠ (vs.getD 0 []).length →
      ∃ res, rbgtGo u az an l [] none last none = .earlyOk res ∧
        res.map (fun g => (g.1, g.2.2)) =
          (((l.filter fun a => decide (a.attrType = u)).map
            Attribute.handle).take j).zip (vs.take j) := by
  intro l
  induction l with
  | nil =>
    intro vs j last hvs hj _ _
    simp only [List.filter_nil, List.mapM_nil] at hvs
    simp at hvs
    subst hvs
    exact absurd hj (by simp)
  | cons a rest ih =>
    intro vs j last hvs hj hprev hne
    by_cases hm : a.attrType = u
    · have hfil : (a :: rest).filter (fun a => decide (a.attrType = u)) =
          a :: rest.filter (fun a => decide (a.attrType = u)) := by
        simp [List.filter_cons, hm]
      rw [hfil] at hvs
      obtain ⟨b, vs2, hb, hrest, hvs2⟩ := mapM_cons_some _ _ _ _ hvs
      subst hvs2
      have hget := getOk_some a az an b hb
      cases j with
      | zero => simp at hne
      | succ j2 =>
        obtain ⟨res, hres, hproj⟩ := rbgtGo_mismatch_steady u az an rest vs2
          j2 [] a.handle b a.handle none hrest
          (by simpa using Nat.lt_of_succ_lt_succ hj)
          (fun i hi => by
            have := hprev (i + 1) (Nat.succ_lt_succ hi)
            simpa using this)
          (by simpa using hne)
        refine ⟨res, ?_, ?_⟩
        · simp only [rbgtGo, if_pos hm, hget]
          exact hres
        · rw [hproj, hfil]
          simp [List.take_succ_cons]
    · have hfil : (a :: rest).filter (fun a => decide (a.attrType = u)) =
          rest.filter (fun a => decide (a.attrType = u)) := by
        simp [List.filter_cons, hm]
      rw [hfil] at hvs
      obtain ⟨res, hres, hproj⟩ := ih vs j a.handle hvs hj hprev hne
      refine ⟨res, ?_, ?_⟩
      · simp only [rbgtGo, if_neg hm]
        exact hres
      · rw [hproj, hfil]

/-- C6: over a valid range, let the matching attributes all read
successfully with values `vs`.  If `j` is the first index whose value
length differs from the length established by the first entry, the
operation returns `Ok` (not an error) with exactly one group per matching
declaration before index `j` — group starts and values are precisely the
first `j` matches — and the differing attribute contributes no group. -/
theorem C6_length_mismatch_stops_iteration (db : Database) (start e : Nat)
    (u : Uuid) (az an : Bool) (vs : List (List Nat)) (j : Nat)
    (hv : ¬(start = 0 ∨ e < start))
    (hvs : ((rangeAttrs db start e).filter
        fun a => decide (a.attrType = u)).mapM
        (fun a => a.getOk az an) = some vs)
    (hj : j < vs.length)
    (hprev : ∀ i, i < j → (vs.getD i []).length = (vs.getD 0 []).length)
    (hne : (vs.getD j []).length ≠ (vs.getD 0 []).length) :
    ∃ gs, dbReadByGroupType db start e u az an = .ok gs ∧
      gs.map (fun g => (g.1, g.2.2)) =
        ((((rangeAttrs db start e).filter
          fun a => decide (a.attrType = u)).map Attribute.handle).take j).zip
          (vs.take j) ∧
      gs.length = j := by
  obtain ⟨res, hres, hproj⟩ :=
    rbgtGo_mismatch_entry u az an (rangeAttrs db start e) vs j 0 hvs hj
      hprev hne
  refine ⟨res, ?_, hproj, ?_⟩
  · unfold dbReadByGroupType
    rw [if_neg hv, hres]
  · have hlen : vs.length = ((rangeAttrs db start e).filter
        fun a => decide (a.attrType = u)).length :=
      mapM_length _ _ _ hvs
    have := congrArg List.length hproj
    simp only [List.length_map, List.length_zip, List.length_take] at this
    omega

/-- Witness for C6: two primary services whose rendered values have
lengths 2 and 16; the mismatch at index 1 stops iteration after the first
group. -/
theorem C6_mismatch_witness :
    ∃ gs, dbReadByGroupType dbTwoWidths 1 0xFFFF (.uuid16 0x2800)
        false false = .ok gs ∧
      gs.map (fun g => (g.1, g.2.2)) =
        ((((rangeAttrs dbTwoWidths 1 0xFFFF).filter
          fun a => decide (a.attrType = Uuid.uuid16 0x2800)).map
          Attribute.handle).take 1).zip
          ([[0x00, 0x18],
            [0x34, 0x12, 0, 0, 0, 0, 0, 0, 0, 0, 0, 0, 0, 0, 0, 0]].take 1) ∧
      gs.length = 1 :=
  C6_length_mismatch_stops_iteration dbTwoWidths 1 0xFFFF (.uuid16 0x2800)
    false false
    [[0x00, 0x18], [0x34, 0x12, 0, 0, 0, 0, 0, 0, 0, 0, 0, 0, 0, 0, 0, 0]]
    1 (by decide) (by decide) (by decide)
    (fun i hi => by
      have hi0 : i = 0 := by omega
      subst hi0
      rfl)
    (by decide)
